import Mathlib

/-
  A verification development for the userspace TCP implementation in
  src/compat.h (utcp.c) together with src/utcp_priv.h.

  The C code is shallowly embedded: machine integers are Nat with explicit
  reduction modulo 2^32 where the C stores into uint32_t, signed reads are
  made explicit through toInt32, and every fallible path (assert, abort,
  C-level divergence) is an Option whose none marks the failure.  Fields of
  struct utcp_connection that the code uses but that the (older) header in
  src/utcp_priv.h does not declare (snd.last, snd.cwnd, dupack,
  maxsndbufsize, the poll callback) are modelled from the spec, section 3.
-/

namespace UTCP

/-- Control flag SYN, from utcp_priv.h. -/
def SYN : Nat := 1

/-- Control flag ACK, from utcp_priv.h. -/
def ACK : Nat := 2

/-- Control flag FIN, from utcp_priv.h. -/
def FIN : Nat := 4

/-- Control flag RST, from utcp_priv.h. -/
def RST : Nat := 8

/-- The modulus of 32-bit machine arithmetic. -/
def M32 : Nat := 4294967296

/-- Reduction into uint32_t, applied wherever the C stores to a uint32_t. -/
def u32 (n : Nat) : Nat := n % M32

/-- Subtraction of uint32_t values as the C machine performs it. -/
def sub32 (a b : Nat) : Nat := (a + M32 - b % M32) % M32

/-- Reinterpretation of a uint32_t bit pattern as int32_t. -/
def toInt32 (n : Nat) : Int :=
  if n % M32 < 2147483648 then Int.ofNat (n % M32)
  else Int.ofNat (n % M32) - Int.ofNat M32

/-- seqdiff from compat.h line 149: the signed 32-bit difference of two
sequence numbers (compute a - b in unsigned 32-bit, reinterpret signed). -/
def seqdiff (a b : Nat) : Int := toInt32 (sub32 a b)

/-- The connection state enum of utcp_priv.h. -/
inductive CState
  | CLOSED
  | LISTEN
  | SYN_SENT
  | SYN_RECEIVED
  | ESTABLISHED
  | FIN_WAIT_1
  | FIN_WAIT_2
  | CLOSE_WAIT
  | CLOSING
  | LAST_ACK
  | TIME_WAIT
deriving DecidableEq, Repr

/-- The 16-byte segment header of utcp_priv.h (struct hdr). -/
structure Hdr where
  src : Nat
  dst : Nat
  seq : Nat
  ack : Nat
  wnd : Nat
  ctl : Nat
  aux : Nat
deriving DecidableEq, Repr

/-- One datagram handed to the egress callback: a header plus payload. -/
structure Seg where
  src : Nat
  dst : Nat
  seq : Nat
  ack : Nat
  wnd : Nat
  ctl : Nat
  payload : List Nat
deriving DecidableEq, Repr

/-- The send control block (struct utcp_connection, snd).  Fields last and
cwnd are modelled from the spec, section 3, since the header in src declares
an older layout without them. -/
structure SndTCB where
  una : Nat
  nxt : Nat
  wnd : Nat
  iss : Nat
  last : Nat
  cwnd : Nat
deriving DecidableEq, Repr

/-- The receive control block (struct utcp_connection, rcv). -/
structure RcvTCB where
  nxt : Nat
  wnd : Nat
  irs : Nat
deriving DecidableEq, Repr

/-- A connection record.  Timers are Option Nat in seconds: none models a
cleared timeval (timerclear / timerisset).  dupack, maxsndbufsize and the
poll-callback slot are modelled from the spec, section 3, being absent from
the older header in src.  hasRecvCb and hasPollCb record whether the
corresponding callback pointer is non-NULL. -/
structure Conn where
  reapable : Bool
  src : Nat
  dst : Nat
  state : CState
  snd : SndTCB
  rcv : RcvTCB
  dupack : Nat
  conn_timeout : Option Nat
  rtrx_timeout : Option Nat
  sndbuf : List Nat
  sndbufsize : Nat
  maxsndbufsize : Nat
  hasRecvCb : Bool
  hasPollCb : Bool
  nodelay : Bool
  keepalive : Bool
deriving DecidableEq, Repr

/-- Host-level configuration (struct utcp).  defaultMaxSndBufSize is
modelled from the spec: DEFAULT_MAXSNDBUFSIZE is defined in utcp.h, which is
not among the files in src, so the constant is kept as a host parameter. -/
structure Utcp where
  mtu : Nat
  timeout : Nat
  hasAccept : Bool
  defaultMaxSndBufSize : Nat
deriving DecidableEq, Repr

/-- The error codes the code assigns to errno. -/
inductive Err
  | EFAULT
  | EBADMSG
  | ENOTCONN
  | EPIPE
  | EBADF
  | EWOULDBLOCK
  | ECONNREFUSED
  | ECONNRESET
  | ETIMEDOUT
  | EADDRINUSE
  | ENOMEM
deriving DecidableEq, Repr

/-- set_state from compat.h line 136: store the new state and clear
conn_timeout when the state entered is ESTABLISHED. -/
def set_state (c : Conn) (s : CState) : Conn :=
  { c with
    state := s
    conn_timeout := if s = CState.ESTABLISHED then none else c.conn_timeout }

/-- The per-iteration segment length of ack, compat.h line 334: at most one
MTU of what is left. -/
def segSize (mtu left : Nat) : Nat := if left > mtu then mtu else left

/-- The FIN condition of compat.h lines 343-353: this iteration drained
left, moved actual data, and the state queued a FIN (FIN_WAIT_1 or
CLOSING). -/
def finSeg (st : CState) (left2 seglen : Nat) : Bool :=
  st ≠ CState.ESTABLISHED ∧ left2 = 0 ∧ seglen ≠ 0 ∧
    (st = CState.FIN_WAIT_1 ∨ st = CState.CLOSING)

/-- The do-while loop of ack (compat.h lines 333-357).  Parameters nxt, off,
left and ctl are the loop-carried values of c->snd.nxt, the data pointer
offset, left, and pkt->hdr.ctl.  The fuel argument bounds the iterations;
running out of fuel models the C loop failing to terminate (possible only
when mtu is zero), returned as none. -/
def ackLoop (mtu : Nat) (st : CState) (buf : List Nat)
    (src dst ack0 wnd0 : Nat) :
    Nat → Nat → Nat → Nat → Nat → Option (Nat × List Seg)
  | 0, _, _, _, _ => none
  | fuel + 1, nxt, off, left, ctl =>
    let seglen := segSize mtu left
    let nxt2 := u32 (nxt + seglen)
    let left2 := left - seglen
    let seglen2 := if finSeg st left2 seglen then seglen - 1 else seglen
    let ctl2 := if finSeg st left2 seglen then ctl ||| FIN else ctl
    let seg : Seg := ⟨src, dst, nxt, ack0, wnd0, ctl2, (buf.drop off).take seglen2⟩
    if left2 = 0 then some (nxt2, [seg])
    else
      match ackLoop mtu st buf src dst ack0 wnd0 fuel nxt2 (off + seglen) left2 ctl2 with
      | none => none
      | some (n, segs) => some (n, seg :: segs)

/-- The bytes pending first transmission at the start of ack: left before
clamping, compat.h line 302. -/
def ackPending (c : Conn) : Int := seqdiff c.snd.last c.snd.nxt

/-- The value of left after the congestion-window clamp of compat.h lines
303-312: cwndleft floored at zero, then taken as an upper bound of left. -/
def ackWindow (c : Conn) : Int :=
  let cwndleft : Int := toInt32 (sub32 c.snd.cwnd (sub32 c.snd.nxt c.snd.una))
  let cwndleft2 : Int := if cwndleft ≤ 0 then 0 else cwndleft
  if cwndleft2 < ackPending c then cwndleft2 else ackPending c

/-- The egress engine ack from compat.h lines 301-360.  Returns the updated
connection and the emitted segments; none models the assert(left >= 0)
firing, or the loop failing to terminate.  Allocation is assumed to
succeed (and on success the pkt->data test on line 323 cannot fail). -/
def ack (u : Utcp) (c : Conn) (sendatleastone : Bool) : Option (Conn × List Seg) :=
  if ackPending c < 0 then none
  else if ackWindow c = 0 ∧ sendatleastone = false then some (c, [])
  else
    match ackLoop u.mtu c.state c.sndbuf c.src c.dst c.rcv.nxt c.snd.wnd
        ((ackWindow c).toNat + 1) c.snd.nxt (seqdiff c.snd.nxt c.snd.una).toNat
        (ackWindow c).toNat ACK with
    | none => none
    | some (n, segs) => some ({ c with snd := { c.snd with nxt := n } }, segs)

/-- Result of a public call on one connection: the connection afterwards,
the segments handed to the egress callback, the return value, and the error
code assigned to errno during the call (none when errno was not written). -/
structure CallRes where
  conn : Conn
  segs : List Seg
  ret : Int
  err : Option Err
deriving DecidableEq, Repr

/-- The send-buffer growth step of utcp_send, compat.h lines 408-425:
when the data does not fit and the buffer may still grow, double it (or jump
to the maximum past its half), then raise it to the demand capped at the
maximum; realloc is assumed to succeed and its junk tail is modelled as
zero bytes. -/
def sendGrow (c : Conn) (bufused len : Nat) : Conn :=
  if len > sub32 c.sndbufsize bufused ∧ c.sndbufsize < c.maxsndbufsize then
    let nb1 :=
      if c.sndbufsize > c.maxsndbufsize / 2 then c.maxsndbufsize
      else u32 (c.sndbufsize * 2)
    let nb2 :=
      if bufused + len > nb1 then
        if bufused + len > c.maxsndbufsize then c.maxsndbufsize
        else u32 (bufused + len)
      else nb1
    { c with
      sndbuf := (c.sndbuf ++ List.replicate (nb2 - c.sndbuf.length) 0).take nb2
      sndbufsize := nb2 }
  else c

/-- utcp_send from compat.h lines 362-440.  dataNull models a NULL data
pointer (the byte list is only read on non-NULL paths); the C len argument
is the length of data.  none models the assert inside the nested ack call
firing.  realloc is assumed to succeed; its junk tail is modelled as zero
bytes.  Note the comparison errno == EWOULDBLOCK on line 431 is a no-op
that does not write errno, which the embedding reproduces by returning
err = none on that path. -/
def utcp_send (u : Utcp) (c : Conn) (dataNull : Bool) (data : List Nat) :
    Option CallRes :=
  if c.reapable then some ⟨c, [], -1, some Err.EBADF⟩
  else
    match c.state with
    | CState.CLOSED | CState.LISTEN | CState.SYN_SENT | CState.SYN_RECEIVED =>
      some ⟨c, [], -1, some Err.ENOTCONN⟩
    | CState.FIN_WAIT_1 | CState.FIN_WAIT_2 | CState.CLOSING
    | CState.LAST_ACK | CState.TIME_WAIT =>
      some ⟨c, [], -1, some Err.EPIPE⟩
    | CState.ESTABLISHED | CState.CLOSE_WAIT =>
      if data.length = 0 then some ⟨c, [], 0, none⟩
      else if dataNull then some ⟨c, [], -1, some Err.EFAULT⟩
      else
        let len := data.length
        let bufused := sub32 c.snd.nxt c.snd.una
        let c1 := sendGrow c bufused len
        let len2 :=
          if len > sub32 c1.sndbufsize bufused then sub32 c1.sndbufsize bufused
          else len
        if len2 = 0 then some ⟨c1, [], 0, none⟩
        else
          let c2 :=
            { c1 with
              sndbuf := c1.sndbuf.take bufused ++ data.take len2 ++
                c1.sndbuf.drop (bufused + len2)
              snd := { c1.snd with last := u32 (c1.snd.last + len2) } }
          match ack u c2 false with
          | none => none
          | some (c3, segs) => some ⟨c3, segs, (len2 : Int), none⟩

/-- utcp_shutdown from compat.h lines 891-935 (the dir argument is unused
in the source, marked TODO).  The NULL-connection check is outside the
model; none models the nested ack call aborting. -/
def utcp_shutdown (u : Utcp) (c : Conn) : Option CallRes :=
  if c.reapable then some ⟨c, [], -1, some Err.EBADF⟩
  else
    match c.state with
    | CState.CLOSED => some ⟨c, [], 0, none⟩
    | CState.LISTEN | CState.SYN_SENT => some ⟨set_state c CState.CLOSED, [], 0, none⟩
    | CState.FIN_WAIT_1 | CState.FIN_WAIT_2 | CState.CLOSING
    | CState.LAST_ACK | CState.TIME_WAIT =>
      some ⟨c, [], 0, none⟩
    | CState.SYN_RECEIVED | CState.ESTABLISHED | CState.CLOSE_WAIT =>
      let c1 :=
        if c.state = CState.CLOSE_WAIT then set_state c CState.CLOSING
        else set_state c CState.FIN_WAIT_1
      let c2 := { c1 with snd := { c1.snd with last := u32 (c1.snd.last + 1) } }
      match ack u c2 false with
      | none => none
      | some (c3, segs) => some ⟨c3, segs, 0, none⟩

/-- utcp_close from compat.h lines 937-942: shutdown, then mark reapable
when shutdown succeeded. -/
def utcp_close (u : Utcp) (c : Conn) : Option CallRes :=
  match utcp_shutdown u c with
  | none => none
  | some r =>
    if r.ret ≠ 0 then some ⟨r.conn, r.segs, -1, r.err⟩
    else some ⟨{ r.conn with reapable := true }, r.segs, 0, r.err⟩

/-- utcp_abort from compat.h lines 944-992 (the NULL check is outside the
model). -/
def utcp_abort (c : Conn) : CallRes :=
  if c.reapable then ⟨c, [], -1, some Err.EBADF⟩
  else
    let c1 := { c with reapable := true }
    match c1.state with
    | CState.CLOSED | CState.LISTEN | CState.SYN_SENT | CState.CLOSING
    | CState.LAST_ACK | CState.TIME_WAIT =>
      ⟨set_state c1 CState.CLOSED, [], 0, none⟩
    | CState.SYN_RECEIVED | CState.ESTABLISHED | CState.FIN_WAIT_1
    | CState.FIN_WAIT_2 | CState.CLOSE_WAIT =>
      ⟨set_state c1 CState.CLOSED,
        [⟨c1.src, c1.dst, c1.snd.nxt, 0, 0, RST, []⟩], 0, none⟩

/-- utcp_accept from compat.h lines 289-299: installs the receive callback
and moves a SYN_RECEIVED connection to ESTABLISHED; invalid calls change
nothing. -/
def utcp_accept (c : Conn) : Conn :=
  if c.reapable ∨ c.state ≠ CState.SYN_RECEIVED then c
  else set_state { c with hasRecvCb := true } CState.ESTABLISHED

/-- The RST reply built at the reset label, compat.h lines 874-887: swap the
ports, zero the window; with ACK set reply seq = hdr.ack keeping the ack
field, otherwise reply seq = 0, ack = hdr.seq + len, ctl = RST and ACK. -/
def resetSeg (hdr : Hdr) (len : Nat) : Seg :=
  if hdr.ctl &&& ACK ≠ 0 then ⟨hdr.dst, hdr.src, hdr.ack, hdr.ack, 0, RST, []⟩
  else ⟨hdr.dst, hdr.src, 0, u32 (hdr.seq + len), 0, RST ||| ACK, []⟩

/-- Outcome of one numbered step of segment processing inside utcp_recv:
continue with the updated connection, return (keeping or freeing the
connection, possibly writing errno), jump to the reset label, or abort. -/
inductive StepRes
  | cont (c : Conn)
  | done (c : Option Conn) (err : Option Err)
  | reset (c : Conn)
  | die
deriving DecidableEq, Repr

/-- Result of processing a segment that matched a connection: the connection
afterwards (none when it was freed), the emitted segments, and any errno
value written for the application. -/
structure SegRes where
  conn : Option Conn
  segs : List Seg
  err : Option Err
deriving DecidableEq, Repr

/-- Step 2 of utcp_recv (compat.h lines 616-662), handling a segment whose
RST flag is set. -/
def step2_rst (c : Conn) (hdr : Hdr) : StepRes :=
  match c.state with
  | CState.SYN_SENT =>
    if hdr.ctl &&& ACK = 0 then StepRes.done (some c) none
    else StepRes.done (some (set_state c CState.CLOSED)) (some Err.ECONNREFUSED)
  | CState.SYN_RECEIVED =>
    if hdr.ctl &&& ACK ≠ 0 then StepRes.done (some c) none
    else StepRes.done none none
  | CState.ESTABLISHED | CState.FIN_WAIT_1 | CState.FIN_WAIT_2 | CState.CLOSE_WAIT =>
    if hdr.ctl &&& ACK ≠ 0 then StepRes.done (some c) none
    else StepRes.done (some (set_state c CState.CLOSED)) (some Err.ECONNRESET)
  | CState.CLOSING | CState.LAST_ACK | CState.TIME_WAIT =>
    if hdr.ctl &&& ACK ≠ 0 then StepRes.done (some c) none
    else if c.reapable then StepRes.done none none
    else StepRes.done (some (set_state c CState.CLOSED)) none
  | _ => StepRes.die

/-- Step 3 of utcp_recv (compat.h lines 664-725): advance snd.una.  none
models one of the two asserts on lines 682 and 685 firing.  The int32_t
decrement of data_acked is computed in unbounded Int; the C has undefined
overflow exactly where the first assert would fail. -/
def step3_advance (u : Utcp) (now : Nat) (c : Conn) (hdr : Hdr) (len : Nat) :
    Option Conn :=
  let advanced := sub32 hdr.ack c.snd.una
  if advanced ≠ 0 then
    let d0 : Int := toInt32 advanced
    let data_acked : Int :=
      if c.state = CState.SYN_SENT ∨ c.state = CState.SYN_RECEIVED then d0 - 1 else d0
    if data_acked < 0 then none
    else
      let bufused : Int := seqdiff c.snd.last c.snd.una
      if data_acked > bufused then none
      else
        let dk := data_acked.toNat
        let lk := (bufused - data_acked).toNat
        let buf2 :=
          if dk ≠ 0 ∧ lk ≠ 0 then (c.sndbuf.drop dk).take lk ++ c.sndbuf.drop lk
          else c.sndbuf
        let cw := u32 (c.snd.cwnd + u.mtu)
        let c2 :=
          { c with
            sndbuf := buf2
            snd := { c.snd with
              una := u32 hdr.ack
              cwnd := if cw > c.maxsndbufsize then c.maxsndbufsize else cw }
            dupack := 0 }
        match c2.state with
        | CState.FIN_WAIT_1 =>
          if c2.snd.una = c2.snd.last then some (set_state c2 CState.FIN_WAIT_2)
          else some c2
        | CState.CLOSING =>
          if c2.snd.una = c2.snd.last then
            some (set_state { c2 with conn_timeout := some (now + 60) } CState.TIME_WAIT)
          else some c2
        | _ => some c2
  else some (if len = 0 then { c with dupack := c.dupack + 1 } else c)

/-- Step 4 of utcp_recv (compat.h lines 727-733): on any advancement clear
conn_timeout, and clear rtrx_timeout when fully drained. -/
def step4_timers (advanced : Nat) (c : Conn) : Conn :=
  if advanced ≠ 0 then
    { c with
      conn_timeout := none
      rtrx_timeout := if c.snd.una = c.snd.nxt then none else c.rtrx_timeout }
  else c

/-- Step 5 of utcp_recv (compat.h lines 737-764), run when the SYN flag is
set. -/
def step5_syn (c : Conn) (hdr : Hdr) (advanced : Nat) : StepRes :=
  match c.state with
  | CState.SYN_SENT =>
    if advanced = 0 then StepRes.reset c
    else
      let c1 :=
        set_state { c with rcv := { c.rcv with irs := u32 hdr.seq, nxt := u32 hdr.seq } }
          CState.ESTABLISHED
      StepRes.cont { c1 with rcv := { c1.rcv with nxt := u32 (c1.rcv.nxt + 1) } }
  | CState.SYN_RECEIVED | CState.ESTABLISHED | CState.FIN_WAIT_1 | CState.FIN_WAIT_2
  | CState.CLOSE_WAIT | CState.CLOSING | CState.LAST_ACK | CState.TIME_WAIT =>
    StepRes.reset c
  | _ => StepRes.die

/-- The handshake-completion part of step 6 of utcp_recv (compat.h lines
768-782).  The host accept callback is application code; appAccepts models
whether it called utcp_accept on the connection. -/
def step6_handshake (u : Utcp) (appAccepts : Bool) (c : Conn) (advanced : Nat) :
    StepRes :=
  if c.state = CState.SYN_RECEIVED then
    if advanced = 0 then StepRes.reset c
    else
      let c1 := if u.hasAccept then (if appAccepts then utcp_accept c else c) else c
      if c1.state ≠ CState.ESTABLISHED then
        StepRes.reset { set_state c1 CState.CLOSED with reapable := true }
      else StepRes.cont c1
  else StepRes.cont c

/-- The payload part of step 6 of utcp_recv (compat.h lines 784-822).  The
receive callback is modelled as consuming every byte (a short return aborts
in the source and is a fatal application error). -/
def step6_data (c : Conn) (payload : List Nat) : StepRes :=
  if payload.length ≠ 0 then
    match c.state with
    | CState.SYN_SENT | CState.SYN_RECEIVED => StepRes.die
    | CState.ESTABLISHED | CState.FIN_WAIT_1 | CState.FIN_WAIT_2 =>
      StepRes.cont { c with rcv := { c.rcv with nxt := u32 (c.rcv.nxt + payload.length) } }
    | CState.CLOSE_WAIT | CState.CLOSING | CState.LAST_ACK | CState.TIME_WAIT =>
      StepRes.reset c
    | _ => StepRes.die
  else StepRes.cont c

/-- Step 7 of utcp_recv (compat.h lines 826-862), run when the FIN flag is
set.  The half-close notification to the receive callback changes no
connection field and is not tracked. -/
def step7_fin (now : Nat) (c : Conn) : StepRes :=
  match c.state with
  | CState.SYN_SENT | CState.SYN_RECEIVED => StepRes.die
  | CState.ESTABLISHED =>
    let c1 := set_state c CState.CLOSE_WAIT
    StepRes.cont { c1 with rcv := { c1.rcv with nxt := u32 (c1.rcv.nxt + 1) } }
  | CState.FIN_WAIT_1 =>
    let c1 := set_state c CState.CLOSING
    StepRes.cont { c1 with rcv := { c1.rcv with nxt := u32 (c1.rcv.nxt + 1) } }
  | CState.FIN_WAIT_2 =>
    let c1 := set_state { c with conn_timeout := some (now + 60) } CState.TIME_WAIT
    StepRes.cont { c1 with rcv := { c1.rcv with nxt := u32 (c1.rcv.nxt + 1) } }
  | CState.CLOSE_WAIT | CState.CLOSING | CState.LAST_ACK | CState.TIME_WAIT =>
    StepRes.reset c
  | _ => StepRes.die

/-- Threads a step outcome into the rest of the processing: reset emits the
RST reply and returns, done returns, die aborts, cont continues. -/
def runStep (hdr : Hdr) (len : Nat) (r : StepRes) (k : Conn → Option SegRes) :
    Option SegRes :=
  match r with
  | StepRes.die => none
  | StepRes.done oc e => some ⟨oc, [], e⟩
  | StepRes.reset c => some ⟨some c, [resetSeg hdr len], none⟩
  | StepRes.cont c => k c

/-- Whether a segment is acceptable, compat.h lines 566-590: every segment
in SYN_SENT, and otherwise exactly the segments with hdr.seq equal to
rcv.nxt. -/
def segAcceptable (c : Conn) (hdr : Hdr) : Bool :=
  if c.state = CState.SYN_SENT then true else hdr.seq = c.rcv.nxt

/-- Processing of an inbound segment that matched a live connection,
compat.h lines 540-887.  garbage is the indeterminate value of prevrcvnxt
on the unacceptable-segment path: the goto on line 598 jumps over the
initializer on line 667, so the flag passed to ack there reads an
uninitialized variable.  none models abort(), a failed assert, or the
nested ack call failing. -/
def processSegment (u : Utcp) (appAccepts : Bool) (now garbage : Nat)
    (c : Conn) (hdr : Hdr) (payload : List Nat) : Option SegRes :=
  let len := payload.length
  if c.state = CState.CLOSED then some ⟨some c, [], none⟩
  else if c.state = CState.LISTEN then none
  else if segAcceptable c hdr = false then
    if hdr.ctl &&& RST ≠ 0 then some ⟨some c, [], none⟩
    else
      match ack u c (garbage ≠ c.rcv.nxt) with
      | none => none
      | some (c2, segs) => some ⟨some c2, segs, none⟩
  else
    let c1 := { c with snd := { c.snd with wnd := u32 hdr.wnd } }
    if hdr.ctl &&& ACK ≠ 0 ∧
        (seqdiff hdr.ack c1.snd.nxt > 0 ∨ seqdiff hdr.ack c1.snd.una < 0) then
      if hdr.ctl &&& RST ≠ 0 then some ⟨some c1, [], none⟩
      else some ⟨some c1, [resetSeg hdr len], none⟩
    else if hdr.ctl &&& RST ≠ 0 then
      runStep hdr len (step2_rst c1 hdr) (fun c2 => some ⟨some c2, [], none⟩)
    else
      let advanced := sub32 hdr.ack c1.snd.una
      let prevrcvnxt := c1.rcv.nxt
      match step3_advance u now c1 hdr len with
      | none => none
      | some c2 =>
        let c3 := step4_timers advanced c2
        runStep hdr len
          (if hdr.ctl &&& SYN ≠ 0 then step5_syn c3 hdr advanced else StepRes.cont c3)
          (fun c4 =>
            runStep hdr len (step6_handshake u appAccepts c4 advanced) (fun c5 =>
              runStep hdr len (step6_data c5 payload) (fun c6 =>
                runStep hdr len
                  (if hdr.ctl &&& FIN ≠ 0 then step7_fin now c6 else StepRes.cont c6)
                  (fun c7 =>
                    match ack u c7 (prevrcvnxt ≠ c7.rcv.nxt) with
                    | none => none
                    | some (c8, segs) => some ⟨some c8, segs, none⟩))))

/-- Modelled from the spec: DEFAULT_SNDBUFSIZE comes from utcp.h, which is
not among the files in src; spec section 6 fixes the initial send buffer at
4 KiB. -/
def DEFAULT_SNDBUFSIZE : Nat := 4096

/-- The size of struct hdr on the wire: 2+2+4+4+4+2+2 bytes. -/
def HDRSIZE : Nat := 20

/-- A fresh connection as produced by allocate_connection, compat.h lines
228-258 (calloc zeroes every field, then the listed ones are filled in).
The malloc'd send buffer's junk contents are modelled as zero bytes. -/
def newConn (u : Utcp) (src dst iss : Nat) : Conn :=
  { reapable := false
    src := src
    dst := dst
    state := CState.CLOSED
    snd :=
      { una := u32 iss, nxt := u32 (iss + 1), wnd := 0, iss := u32 iss
        last := u32 (iss + 1), cwnd := u.mtu }
    rcv := { nxt := 0, wnd := u.mtu, irs := 0 }
    dupack := 0
    conn_timeout := none
    rtrx_timeout := none
    sndbuf := List.replicate DEFAULT_SNDBUFSIZE 0
    sndbufsize := DEFAULT_SNDBUFSIZE
    maxsndbufsize := u.defaultMaxSndBufSize
    hasRecvCb := false
    hasPollCb := false
    nodelay := false
    keepalive := false }

/-- The connection created by utcp_connect, compat.h lines 260-287: fresh,
with a receive callback, in SYN_SENT, with conn_timeout armed to now plus
the host user timeout. -/
def connectConn (u : Utcp) (src dst iss now : Nat) : Conn :=
  { set_state { newConn u src dst iss with hasRecvCb := true } CState.SYN_SENT with
    conn_timeout := some (now + u.timeout) }

/-- The connection created for an accepted inbound SYN, compat.h lines
507-517: fresh, snd.wnd from the segment, rcv.irs from its seq, rcv.nxt one
past it, in SYN_RECEIVED. -/
def synRecvConn (u : Utcp) (hdr : Hdr) (iss : Nat) : Conn :=
  let c := newConn u hdr.dst hdr.src iss
  set_state
    { c with
      snd := { c.snd with wnd := u32 hdr.wnd }
      rcv := { c.rcv with irs := u32 hdr.seq, nxt := u32 (u32 hdr.seq + 1) } }
    CState.SYN_RECEIVED

/-- The SYN+ACK reply emitted for an accepted inbound SYN, compat.h lines
519-525 (the reused incoming header keeps its wnd and aux fields). -/
def synAckSeg (hdr : Hdr) (c : Conn) : Seg :=
  ⟨c.src, c.dst, c.snd.iss, u32 (c.rcv.irs + 1), hdr.wnd, SYN ||| ACK, []⟩

/-- Reads a 16-bit field from a byte list at offset i.  The wire format is
host byte order (spec section 6); the model fixes little-endian. -/
def get16 (l : List Nat) (i : Nat) : Nat := l.getD i 0 + 256 * l.getD (i + 1) 0

/-- Reads a 32-bit field from a byte list at offset i, little-endian. -/
def get32 (l : List Nat) (i : Nat) : Nat := get16 l i + 65536 * get16 l (i + 2)

/-- The memcpy from the datagram into a struct hdr, compat.h line 474. -/
def parseHdr (bytes : List Nat) : Hdr :=
  ⟨get16 bytes 0, get16 bytes 2, get32 bytes 4, get32 bytes 8, get32 bytes 12,
    get16 bytes 16, get16 bytes 18⟩

/-- Result of utcp_recv on a whole host: the connection list afterwards,
the emitted segments, the return value and the errno value written. -/
structure RecvRes where
  conns : List Conn
  segs : List Seg
  ret : Int
  err : Option Err
deriving DecidableEq, Repr

/-- Dispatch of a parsed segment to the connection list: the first
connection whose (src, dst) equals the segment's (dst, src) processes it
(find_connection, compat.h line 487); with no match the new-connection path
of compat.h lines 491-533 runs.  preAcceptOk models the pre_accept callback
verdict, newIss the rand() initial sequence number; allocation succeeds. -/
def recvDispatch (u : Utcp) (appAccepts preAcceptOk : Bool) (now garbage newIss : Nat)
    (hdr : Hdr) (payload : List Nat) : List Conn → Option (List Conn × List Seg)
  | [] =>
    if hdr.ctl &&& RST ≠ 0 then some ([], [])
    else if hdr.ctl &&& SYN ≠ 0 ∧ hdr.ctl &&& ACK = 0 ∧ u.hasAccept then
      if preAcceptOk = false then some ([], [resetSeg hdr 1])
      else
        let c := synRecvConn u hdr newIss
        some ([c], [synAckSeg hdr c])
    else some ([], [resetSeg hdr 1])
  | c :: rest =>
    if c.src = hdr.dst ∧ c.dst = hdr.src then
      match processSegment u appAccepts now garbage c hdr payload with
      | none => none
      | some r =>
        some ((match r.conn with | some c2 => c2 :: rest | none => rest), r.segs)
    else
      match recvDispatch u appAccepts preAcceptOk now garbage newIss hdr payload rest with
      | none => none
      | some (rest2, segs) => some (c :: rest2, segs)

/-- utcp_recv from compat.h lines 448-889.  dataNull models a NULL data
pointer; the C len argument is the length of bytes.  The NULL-host check is
outside the model. -/
def utcp_recv (u : Utcp) (conns : List Conn) (dataNull : Bool) (bytes : List Nat)
    (appAccepts preAcceptOk : Bool) (now garbage newIss : Nat) : Option RecvRes :=
  if bytes.length = 0 then some ⟨conns, [], 0, none⟩
  else if dataNull then some ⟨conns, [], -1, some Err.EFAULT⟩
  else if bytes.length < HDRSIZE then some ⟨conns, [], -1, some Err.EBADMSG⟩
  else
    let hdr := parseHdr bytes
    let payload := bytes.drop HDRSIZE
    if hdr.ctl &&& 65520 ≠ 0 then some ⟨conns, [], -1, some Err.EBADMSG⟩
    else
      match recvDispatch u appAccepts preAcceptOk now garbage newIss hdr payload conns with
      | none => none
      | some (conns2, segs) => some ⟨conns2, segs, 0, none⟩

/-- retransmit from compat.h lines 994-1059.  none models the abort in the
default branch; in the SYN_RECEIVED and ESTABLISHED branches the source
never writes pkt->hdr.wnd (malloc junk), modelled as 0.  Allocation is
assumed to succeed. -/
def retransmit (u : Utcp) (c : Conn) : Option (List Seg) :=
  if c.state = CState.CLOSED ∨ c.snd.nxt = c.snd.una then some []
  else
    match c.state with
    | CState.LISTEN => some []
    | CState.SYN_SENT => some [⟨c.src, c.dst, c.snd.iss, 0, c.rcv.wnd, SYN, []⟩]
    | CState.SYN_RECEIVED => some [⟨c.src, c.dst, c.snd.nxt, c.rcv.nxt, 0, SYN ||| ACK, []⟩]
    | CState.ESTABLISHED | CState.FIN_WAIT_1 =>
      let len0 := sub32 c.snd.nxt c.snd.una
      let len1 := if c.state = CState.FIN_WAIT_1 then sub32 len0 1 else len0
      let len2 := if len1 > u.mtu then u.mtu else len1
      let ctl2 :=
        if len1 > u.mtu then ACK
        else if c.state = CState.FIN_WAIT_1 then ACK ||| FIN else ACK
      some [⟨c.src, c.dst, c.snd.una, c.rcv.nxt, 0, ctl2, c.sndbuf.take len2⟩]
    | _ => none

/-- A timer has fired: it is set and lies strictly in the past (timerisset
together with timercmp <). -/
def expired (t : Option Nat) (now : Nat) : Bool :=
  match t with
  | none => false
  | some v => v < now

/-- Result of the per-connection body of the utcp_timeout sweep: the
connection afterwards (none when reaped), the segments retransmitted, and
the free-byte count passed to the poll callback when it was invoked. -/
structure TickRes where
  conn : Option Conn
  segs : List Seg
  polled : Option Nat
deriving DecidableEq, Repr

/-- The per-connection body of utcp_timeout, compat.h lines 1073-1112:
reap CLOSED reapable connections; on conn_timeout expiry set the state to
CLOSED (a direct assignment, bypassing set_state) and stop; otherwise
retransmit when rtrx_timeout expired, invoke the poll callback when one is
installed, the allocated send buffer is below half the maximum and the
state is ESTABLISHED or CLOSE_WAIT, and finally recompute rtrx_timeout. -/
def timeoutConnStep (u : Utcp) (now : Nat) (c : Conn) : Option TickRes :=
  if c.state = CState.CLOSED then
    if c.reapable then some ⟨none, [], none⟩ else some ⟨some c, [], none⟩
  else if expired c.conn_timeout now then
    some ⟨some { c with state := CState.CLOSED }, [], none⟩
  else
    match (if expired c.rtrx_timeout now then retransmit u c else some []) with
    | none => none
    | some segs =>
      let polled :=
        if c.hasPollCb ∧ c.sndbufsize < c.maxsndbufsize / 2 ∧
            (c.state = CState.ESTABLISHED ∨ c.state = CState.CLOSE_WAIT) then
          some (sub32 c.maxsndbufsize c.sndbufsize)
        else none
      let rt := if c.snd.nxt ≠ c.snd.una then some (now + 1) else none
      some ⟨some { c with rtrx_timeout := rt }, segs, polled⟩

/-- The utcp_timeout sweep over the host's connection list, collecting the
surviving connections, the retransmitted segments, and the arguments of the
poll-callback invocations in order. -/
def utcp_timeout (u : Utcp) (now : Nat) :
    List Conn → Option (List Conn × List Seg × List Nat)
  | [] => some ([], [], [])
  | c :: rest =>
    match timeoutConnStep u now c with
    | none => none
    | some r =>
      match utcp_timeout u now rest with
      | none => none
      | some (cs, segs, polls) =>
        some
          ((match r.conn with | some c2 => c2 :: cs | none => cs),
            r.segs ++ segs,
            (match r.polled with | some p => p :: polls | none => polls))

/-- utcp_set_sndbuf from compat.h lines 1180-1184: the size_t argument is
truncated into the uint32_t field; the following always-false-looking check
compares the stored value with the argument and stores (uint32_t)-1 when
they differ. -/
def utcp_set_sndbuf (c : Conn) (size : Nat) : Conn :=
  { c with maxsndbufsize := if u32 size = size then u32 size else M32 - 1 }

/-- utcp_set_recv_cb from compat.h line 1206. -/
def utcp_set_recv_cb (c : Conn) (b : Bool) : Conn := { c with hasRecvCb := b }

/-- utcp_set_poll_cb from compat.h line 1210. -/
def utcp_set_poll_cb (c : Conn) (b : Bool) : Conn := { c with hasPollCb := b }

/-- utcp_set_nodelay from compat.h line 1190. -/
def utcp_set_nodelay (c : Conn) (b : Bool) : Conn := { c with nodelay := b }

/-- utcp_set_keepalive from compat.h line 1198. -/
def utcp_set_keepalive (c : Conn) (b : Bool) : Conn := { c with keepalive := b }

/-- The states a single connection can be driven through by the public
surface: created by connect or by an accepted inbound SYN, then transformed
by segment ingress, send, shutdown, close, abort, accept, the timeout
sweep, and the per-connection setters.  Each step quantifies its own host
configuration, so mtu and user-timeout changes between calls are covered. -/
inductive Reachable : Conn → Prop
  | base_connect (u : Utcp) (src dst iss now : Nat) :
    Reachable (connectConn u src dst iss now)
  | base_syn (u : Utcp) (hdr : Hdr) (iss : Nat) :
    Reachable (synRecvConn u hdr iss)
  | step_recv (u : Utcp) (appAccepts : Bool) (now garbage : Nat) (c : Conn)
      (hdr : Hdr) (payload : List Nat) (r : SegRes) (c2 : Conn) :
    Reachable c → processSegment u appAccepts now garbage c hdr payload = some r →
    r.conn = some c2 → Reachable c2
  | step_send (u : Utcp) (c : Conn) (dataNull : Bool) (data : List Nat) (r : CallRes) :
    Reachable c → utcp_send u c dataNull data = some r → Reachable r.conn
  | step_shutdown (u : Utcp) (c : Conn) (r : CallRes) :
    Reachable c → utcp_shutdown u c = some r → Reachable r.conn
  | step_close (u : Utcp) (c : Conn) (r : CallRes) :
    Reachable c → utcp_close u c = some r → Reachable r.conn
  | step_abort (c : Conn) :
    Reachable c → Reachable (utcp_abort c).conn
  | step_accept (c : Conn) :
    Reachable c → Reachable (utcp_accept c)
  | step_timeout (u : Utcp) (now : Nat) (c : Conn) (r : TickRes) (c2 : Conn) :
    Reachable c → timeoutConnStep u now c = some r → r.conn = some c2 → Reachable c2
  | step_set_sndbuf (c : Conn) (size : Nat) :
    Reachable c → Reachable (utcp_set_sndbuf c size)
  | step_set_recv_cb (c : Conn) (b : Bool) :
    Reachable c → Reachable (utcp_set_recv_cb c b)
  | step_set_poll_cb (c : Conn) (b : Bool) :
    Reachable c → Reachable (utcp_set_poll_cb c b)
  | step_set_nodelay (c : Conn) (b : Bool) :
    Reachable c → Reachable (utcp_set_nodelay c b)
  | step_set_keepalive (c : Conn) (b : Bool) :
    Reachable c → Reachable (utcp_set_keepalive c b)

/-- The invariant of interest for the user timeout: an ESTABLISHED
connection has no pending conn_timeout. -/
def Pinv (c : Conn) : Prop :=
  c.state = CState.ESTABLISHED → c.conn_timeout = none

/-- Lifts a predicate on connections over a step outcome: it must hold of
every connection the outcome still carries. -/
def StepAll (P : Conn → Prop) : StepRes → Prop
  | StepRes.cont c => P c
  | StepRes.done (some c) _ => P c
  | StepRes.done none _ => True
  | StepRes.reset c => P c
  | StepRes.die => True

/-- The span of sequence numbers a segment consumes: its payload bytes plus
one when it carries a FIN. -/
def segLen (s : Seg) : Nat :=
  s.payload.length + (if s.ctl &&& FIN ≠ 0 then 1 else 0)

/-- Total sequence-number span of a list of segments. -/
def sumSegLen (segs : List Seg) : Nat := (segs.map segLen).sum

/-- The burst emitted by the egress engine, described segment by segment:
starting at sequence number nxt and buffer offset off, each segment carries
seq equal to the running sequence number and a payload that is the slice of
the send buffer at the running offset, and both advance by the segment's
span. -/
def SegChain (buf : List Nat) : Nat → Nat → List Seg → Prop
  | _, _, [] => True
  | nxt, off, s :: rest =>
    s.seq = nxt ∧ s.payload = (buf.drop off).take s.payload.length ∧
      SegChain buf (u32 (nxt + segLen s)) (off + segLen s) rest

/-- A sample host configuration used by the concrete instances below. -/
def uu : Utcp := ⟨1000, 60, true, 65536⟩

/-- A sample host configuration with a small MTU. -/
def u10 : Utcp := ⟨10, 60, true, 65536⟩

/-- Builder for the concrete connections used in the examples. -/
def sampleConn (st : CState) (snd0 : SndTCB) (rcv0 : RcvTCB) (buf : List Nat)
    (bsz mbsz : Nat) (poll : Bool) : Conn :=
  { reapable := false
    src := 1
    dst := 2
    state := st
    snd := snd0
    rcv := rcv0
    dupack := 0
    conn_timeout := none
    rtrx_timeout := none
    sndbuf := buf
    sndbufsize := bsz
    maxsndbufsize := mbsz
    hasRecvCb := true
    hasPollCb := poll
    nodelay := false
    keepalive := false }

/-- An idle ESTABLISHED connection: empty send buffer, nothing pending. -/
def connEstIdle : Conn :=
  sampleConn CState.ESTABLISHED ⟨50, 50, 7, 40, 50, 1000⟩ ⟨100, 1000, 90⟩ [] 0 65536 false

/-- A stray segment: wrong sequence number, no control flags. -/
def hdrStray : Hdr := ⟨2, 1, 5, 0, 3, 0, 0⟩

/-- A SYN_SENT connection awaiting its SYN+ACK, as utcp_connect leaves it
(initial sequence number 1000, user timeout armed). -/
def connSynSent : Conn :=
  { sampleConn CState.SYN_SENT ⟨1000, 1001, 0, 1000, 1001, 10⟩ ⟨0, 10, 0⟩ [] 0 4096 false with
    conn_timeout := some 60 }

/-- A SYN+ACK whose initial sequence number has the high bit set. -/
def hdrSynAckHigh : Hdr := ⟨2, 1, 2147483648, 1001, 5, 3, 0⟩

/-- A FIN_WAIT_1 connection with 6 buffered bytes plus a queued FIN, whose
congestion window admits only 5 more sequence numbers. -/
def connFw1Clamped : Conn :=
  sampleConn CState.FIN_WAIT_1 ⟨0, 0, 9, 0, 7, 5⟩ ⟨100, 10, 0⟩ [1, 2, 3, 4, 5, 6] 6 4096 false

/-- An ESTABLISHED connection whose send buffer is full and cannot grow. -/
def connEstFull : Conn :=
  sampleConn CState.ESTABLISHED ⟨0, 4, 0, 0, 4, 8⟩ ⟨0, 10, 0⟩ [9, 9, 9, 9] 4 4 false

/-- A CLOSING connection with 5 unacknowledged bytes (the last being its
FIN), a nonzero dupack count and a pending retransmission timer. -/
def connClosing : Conn :=
  { sampleConn CState.CLOSING ⟨0, 5, 0, 0, 5, 10⟩ ⟨20, 10, 0⟩ [1, 2, 3, 4, 5] 5 50 false with
    dupack := 3
    rtrx_timeout := some 9 }

/-- A pure ACK acknowledging everything connClosing has outstanding. -/
def hdrAckAll : Hdr := ⟨2, 1, 20, 5, 11, 2, 0⟩

/-- The state step 3 leaves connClosing in after hdrAckAll at time 7:
everything acked, TIME_WAIT, conn_timeout armed to 67. -/
def connClosingAcked : Conn :=
  { sampleConn CState.TIME_WAIT ⟨5, 5, 0, 0, 5, 50⟩ ⟨20, 10, 0⟩ [1, 2, 3, 4, 5] 5 50 false with
    conn_timeout := some 67
    rtrx_timeout := some 9 }

/-- An ESTABLISHED connection with 3 unsent buffered bytes. -/
def connEstQueued : Conn :=
  sampleConn CState.ESTABLISHED ⟨50, 50, 7, 40, 53, 1000⟩ ⟨100, 1000, 90⟩ [1, 2, 3] 3 65536 false

/-- A connection sitting exactly on the poll boundary: 2 of at most 5
buffer bytes allocated, so 3 bytes, more than half, are free. -/
def connPollEdge : Conn :=
  sampleConn CState.ESTABLISHED ⟨0, 0, 0, 0, 0, 8⟩ ⟨0, 10, 0⟩ [0, 0] 2 5 true

/-- A connection with 1 of at most 5 buffer bytes allocated: below half
the maximum with floor division, so the sweep polls with 4 free bytes. -/
def connPollReady : Conn :=
  sampleConn CState.ESTABLISHED ⟨0, 0, 0, 0, 0, 8⟩ ⟨0, 10, 0⟩ [0] 1 5 true

/-- The sweep-step result on connPollReady at time 3. -/
def resPollReady : TickRes := ⟨some connPollReady, [], some 4⟩

/-- An inbound SYN for a listening host. -/
def hdrSynNew : Hdr := ⟨7, 9, 500, 0, 300, 1, 0⟩

/-- The ESTABLISHED connection obtained by accepting hdrSynNew and letting
the application take the connection. -/
def connAccepted : Conn := utcp_accept (synRecvConn uu hdrSynNew 5)

/-- The connection left by processing hdrSynAckHigh on connSynSent: the
peer initial sequence number has the high bit set, so the new rcv.nxt looks
like a decrease under seqdiff. -/
def connSynAcked : Conn :=
  sampleConn CState.ESTABLISHED ⟨1001, 1001, 5, 1000, 1001, 1010⟩
    ⟨2147483649, 10, 2147483648⟩ [] 0 4096 false

/-- The connection left by processing hdrAckAll on connClosing at time 7:
everything acked, TIME_WAIT, with both timers cleared by step 4. -/
def connClosingDone : Conn :=
  sampleConn CState.TIME_WAIT ⟨5, 5, 11, 0, 5, 50⟩ ⟨20, 10, 0⟩ [1, 2, 3, 4, 5] 5 50 false

/-- The connection left by steps 3 and 4 alone on connClosing at time 7
(no snd.wnd update): TIME_WAIT with both timers cleared by step 4. -/
def connClosingSwept : Conn :=
  sampleConn CState.TIME_WAIT ⟨5, 5, 0, 0, 5, 50⟩ ⟨20, 10, 0⟩ [1, 2, 3, 4, 5] 5 50 false

/-- Monotonicity tracking through segment processing before any change to
rcv.nxt: the state is not SYN_SENT, snd.una has not moved back, rcv.nxt is
untouched. -/
def Mono2 (c x : Conn) : Prop :=
  x.state ≠ CState.SYN_SENT ∧ 0 ≤ seqdiff x.snd.una c.snd.una ∧
    x.rcv.nxt = c.rcv.nxt

/-- Monotonicity tracking after the payload step, which may have advanced
rcv.nxt by the payload length. -/
def Mono3 (len : Nat) (c x : Conn) : Prop :=
  0 ≤ seqdiff x.snd.una c.snd.una ∧
    (x.rcv.nxt = c.rcv.nxt ∨ x.rcv.nxt = u32 (c.rcv.nxt + len))

/-- Monotonicity tracking after the FIN step, which may have advanced
rcv.nxt by one more. -/
def Mono4 (len : Nat) (c x : Conn) : Prop :=
  0 ≤ seqdiff x.snd.una c.snd.una ∧
    (x.rcv.nxt = c.rcv.nxt ∨ x.rcv.nxt = u32 (c.rcv.nxt + len) ∨
      x.rcv.nxt = u32 (c.rcv.nxt + 1) ∨ x.rcv.nxt = u32 (c.rcv.nxt + (len + 1)))

/-- Shared arithmetic fact: a value differs from itself by zero. -/
theorem sub32_self (a : Nat) : sub32 a a = 0 := by
  unfold sub32 M32; omega

/-- Shared arithmetic fact: seqdiff of a value with itself is zero. -/
theorem seqdiff_self (a : Nat) : seqdiff a a = 0 := by
  unfold seqdiff toInt32
  rw [sub32_self]
  norm_num [M32]

/-- Shared arithmetic fact: reducing the minuend does not change sub32. -/
theorem sub32_u32_left (a b : Nat) : sub32 (u32 a) b = sub32 a b := by
  unfold sub32 u32 M32; omega

/-- Shared arithmetic fact: sub32 recovers an added offset modulo 2^32. -/
theorem sub32_add_self (a k : Nat) : sub32 (a + k) a = k % M32 := by
  unfold sub32 M32; omega

/-- Shared arithmetic fact: nested u32 reductions collapse. -/
theorem u32_add_left (a b : Nat) : u32 (u32 a + b) = u32 (a + b) := by
  unfold u32 M32; omega

/-- Shared arithmetic fact: toInt32 is the identity below 2^31. -/
theorem toInt32_small (k : Nat) (h : k < 2147483648) : toInt32 k = (k : Int) := by
  unfold toInt32 M32
  have h2 : k % 4294967296 = k := Nat.mod_eq_of_lt (by omega)
  simp [h2, h]

/-- Shared arithmetic fact: advancing by less than 2^31 never looks like a
decrease through seqdiff. -/
theorem seqdiff_add_small (a k : Nat) (h : k < 2147483648) :
    0 ≤ seqdiff (u32 (a + k)) a := by
  unfold seqdiff
  rw [sub32_u32_left, sub32_add_self]
  rw [toInt32_small (k % M32) (by unfold M32 at *; omega)]
  positivity

/-- Shared arithmetic fact: a strictly positive seqdiff means the unsigned
difference is nonzero. -/
theorem sub32_ne_of_seqdiff_pos (a b : Nat) (h : 0 < seqdiff a b) : sub32 a b ≠ 0 := by
  intro h0
  rw [seqdiff, h0] at h
  norm_num [toInt32, M32] at h

/-- Shared frame fact: the egress engine changes nothing but snd.nxt. -/
theorem ack_frame (u : Utcp) (c : Conn) (f : Bool) (c2 : Conn) (segs : List Seg)
    (h : ack u c f = some (c2, segs)) :
    c2 = { c with snd := { c.snd with nxt := c2.snd.nxt } } := by
  unfold ack at h
  split at h
  · exact Option.noConfusion h
  · split at h
    · rw [Option.some.injEq, Prod.mk.injEq] at h
      obtain ⟨h1, _⟩ := h
      subst h1
      rfl
    · split at h
      · exact Option.noConfusion h
      · rw [Option.some.injEq, Prod.mk.injEq] at h
        obtain ⟨h1, _⟩ := h
        subst h1
        rfl

end UTCP

namespace UTCP

/-- Helper for C2: reading the moved-down region of a memmove. -/
theorem memmove_getD (buf : List Nat) (dk lk : Nat) (hlen : dk + lk ≤ buf.length)
    (i : Nat) (hi : i < lk) :
    ((buf.drop dk).take lk ++ buf.drop lk).getD i 0 = buf.getD (dk + i) 0 := by
  have hl : ((buf.drop dk).take lk).length = lk := by
    rw [List.length_take, List.length_drop]; omega
  rw [List.getD_eq_getElem?_getD, List.getD_eq_getElem?_getD,
    List.getElem?_append_left (by rw [hl]; exact hi),
    List.getElem?_take, if_pos hi, List.getElem?_drop]

/-- C10: on a live ESTABLISHED or CLOSE_WAIT connection, a zero-length send
returns 0, changes nothing, emits nothing, and does not reach the NULL
check, so a NULL data pointer is accepted. -/
theorem C10_zero_send (u : Utcp) (c : Conn) (dataNull : Bool)
    (hreap : c.reapable = false)
    (hst : c.state = CState.ESTABLISHED ∨ c.state = CState.CLOSE_WAIT) :
    utcp_send u c dataNull [] = some ⟨c, [], 0, none⟩ := by
  unfold utcp_send
  rcases hst with h | h <;> simp [hreap, h]

/-- C10 witness: the theorem applied to a concrete idle connection with a
NULL data pointer. -/
theorem C10_zero_send_witness :
    connEstIdle.reapable = false ∧
    (connEstIdle.state = CState.ESTABLISHED ∨ connEstIdle.state = CState.CLOSE_WAIT) ∧
    utcp_send uu connEstIdle true [] = some ⟨connEstIdle, [], 0, none⟩ :=
  ⟨by decide, Or.inl (by decide),
    C10_zero_send uu connEstIdle true (by decide) (Or.inl (by decide))⟩

/-- C6: at the failing input (a full send buffer that cannot grow) the code
accepts zero bytes and returns 0, but the comparison errno == EWOULDBLOCK
on compat.h line 431 discards its result, so errno is never written: the
call ends with no error set, against the documented WouldBlock error. -/
theorem C6_wouldblock_errno_lost :
    utcp_send uu connEstFull false [7] = some ⟨connEstFull, [], 0, none⟩ ∧
    sub32 connEstFull.sndbufsize (sub32 connEstFull.snd.nxt connEstFull.snd.una) = 0 ∧
    connEstFull.sndbufsize = connEstFull.maxsndbufsize := by decide

/-- C5 counterexample: a zero-length datagram is shorter than the header,
yet utcp_recv returns 0 with no error, because the len check on line 454
precedes the size check on line 467; the claimed result would be -1 with
BadMessage. -/
theorem C5_counterexample :
    utcp_recv uu [] false [] false false 0 0 0 = some ⟨[], [], 0, none⟩ := by decide

/-- C5 amended: a non-NULL, nonempty datagram shorter than the 20-byte
header (sizeof struct hdr), or one whose ctl field has bits outside
SYN, ACK, FIN, RST, is rejected with -1 and EBADMSG and no connection
changes. -/
theorem C5_amended (u : Utcp) (conns : List Conn) (bytes : List Nat)
    (appAcc preAcc : Bool) (now garbage newIss : Nat)
    (hcond : (1 ≤ bytes.length ∧ bytes.length < HDRSIZE) ∨
      (HDRSIZE ≤ bytes.length ∧ (parseHdr bytes).ctl &&& 65520 ≠ 0)) :
    utcp_recv u conns false bytes appAcc preAcc now garbage newIss =
      some ⟨conns, [], -1, some Err.EBADMSG⟩ := by
  unfold utcp_recv
  rcases hcond with ⟨h1, h2⟩ | ⟨h1, h2⟩
  · have h0 : ¬ bytes.length = 0 := by omega
    simp [h0, h2]
  · have h0 : ¬ bytes.length = 0 := by unfold HDRSIZE at h1; omega
    have h3 : ¬ bytes.length < HDRSIZE := by omega
    simp [h0, h3, h2]

/-- C5 witness: the amended theorem applied to a 3-byte datagram. -/
theorem C5_amended_witness :
    ((1 ≤ ([1, 2, 3] : List Nat).length ∧ ([1, 2, 3] : List Nat).length < HDRSIZE) ∨
      (HDRSIZE ≤ ([1, 2, 3] : List Nat).length ∧
        (parseHdr [1, 2, 3]).ctl &&& 65520 ≠ 0)) ∧
    utcp_recv uu [] false [1, 2, 3] false false 0 0 0 =
      some ⟨[], [], -1, some Err.EBADMSG⟩ :=
  ⟨Or.inl ⟨by decide, by decide⟩,
    C5_amended uu [] [1, 2, 3] false false 0 0 0 (Or.inl ⟨by decide, by decide⟩)⟩

end UTCP

namespace UTCP

/-- C7: shutdown is idempotent with respect to emission: a second shutdown
on a non-reapable connection emits nothing and changes nothing, and on a
connection already past its FIN (FIN_WAIT_1, FIN_WAIT_2, CLOSING,
LAST_ACK, TIME_WAIT) shutdown returns 0 leaving the connection, in
particular snd.last, untouched and calling no egress. -/
theorem C7_shutdown_idempotent (u : Utcp) (c : Conn) (hreap : c.reapable = false) :
    (∀ r, utcp_shutdown u c = some r →
      utcp_shutdown u r.conn = some ⟨r.conn, [], 0, none⟩) ∧
    ((c.state = CState.FIN_WAIT_1 ∨ c.state = CState.FIN_WAIT_2 ∨
        c.state = CState.CLOSING ∨ c.state = CState.LAST_ACK ∨
        c.state = CState.TIME_WAIT) →
      utcp_shutdown u c = some ⟨c, [], 0, none⟩) := by
  constructor
  · intro r hr
    unfold utcp_shutdown at hr
    rw [if_neg (by simp [hreap])] at hr
    split at hr
    all_goals rename_i heq
    all_goals
      first
        | (rw [Option.some.injEq] at hr
           subst hr
           simp [utcp_shutdown, set_state, hreap, heq])
        | (simp only [heq] at hr
           split at hr
           · exact Option.noConfusion hr
           · rename_i c3 segs heq2
             rw [Option.some.injEq] at hr
             subst hr
             have hf := ack_frame _ _ _ _ _ heq2
             show utcp_shutdown u c3 = some ⟨c3, [], 0, none⟩
             rw [hf]
             simp [utcp_shutdown, set_state, hreap])
  · intro hst
    unfold utcp_shutdown
    rw [if_neg (by simp [hreap])]
    rcases hst with h | h | h | h | h <;> rw [h]

end UTCP

namespace UTCP

/-- C7 witness: the idempotence theorem applied to a concrete ESTABLISHED
connection with queued data. -/
theorem C7_shutdown_idempotent_witness :
    connEstQueued.reapable = false ∧
    ((∀ r, utcp_shutdown uu connEstQueued = some r →
        utcp_shutdown uu r.conn = some ⟨r.conn, [], 0, none⟩) ∧
      ((connEstQueued.state = CState.FIN_WAIT_1 ∨ connEstQueued.state = CState.FIN_WAIT_2 ∨
          connEstQueued.state = CState.CLOSING ∨ connEstQueued.state = CState.LAST_ACK ∨
          connEstQueued.state = CState.TIME_WAIT) →
        utcp_shutdown uu connEstQueued = some ⟨connEstQueued, [], 0, none⟩)) :=
  ⟨by decide, C7_shutdown_idempotent uu connEstQueued (by decide)⟩

/-- C8 counterexample: with maxsndbufsize 5 and sndbufsize 2, three bytes,
more than half of the maximum, are free, the connection is ESTABLISHED and
a poll callback is installed, yet the sweep does not invoke it, because the
code tests sndbufsize < maxsndbufsize / 2 with floor division (2 < 2 fails). -/
theorem C8_counterexample :
    timeoutConnStep uu 3 connPollEdge = some ⟨some connPollEdge, [], none⟩ ∧
    connPollEdge.hasPollCb = true ∧
    connPollEdge.state = CState.ESTABLISHED ∧
    connPollEdge.maxsndbufsize <
      2 * (connPollEdge.maxsndbufsize - connPollEdge.sndbufsize) := by decide

/-- C8 amended: during a sweep step on a connection that is not CLOSED and
whose conn_timeout has not expired, the poll callback is invoked exactly
when one is installed, the allocated buffer size is below half the maximum
with floor division, and the state is ESTABLISHED or CLOSE_WAIT; when
invoked its argument is the free byte count maxsndbufsize - sndbufsize. -/
theorem C8_amended (u : Utcp) (now : Nat) (c : Conn) (r : TickRes)
    (hcl : c.state ≠ CState.CLOSED)
    (hct : expired c.conn_timeout now = false)
    (heq : timeoutConnStep u now c = some r) :
    (r.polled ≠ none ↔
      (c.hasPollCb = true ∧ c.sndbufsize < c.maxsndbufsize / 2 ∧
        (c.state = CState.ESTABLISHED ∨ c.state = CState.CLOSE_WAIT))) ∧
    (∀ p, r.polled = some p → p = sub32 c.maxsndbufsize c.sndbufsize) := by
  unfold timeoutConnStep at heq
  rw [if_neg hcl, if_neg (by simp [hct])] at heq
  by_cases hp : (c.hasPollCb = true ∧ c.sndbufsize < c.maxsndbufsize / 2 ∧
      (c.state = CState.ESTABLISHED ∨ c.state = CState.CLOSE_WAIT))
  · split at heq
    · exact Option.noConfusion heq
    · rename_i segs heq2
      rw [Option.some.injEq] at heq
      subst heq
      simp [hp]
  · split at heq
    · exact Option.noConfusion heq
    · rename_i segs heq2
      rw [Option.some.injEq] at heq
      subst heq
      simp [hp]

/-- C8 witness: the amended theorem applied to a connection with 1 of 5
bytes allocated, below half with floor division, so poll is invoked with
the 4 free bytes. -/
theorem C8_amended_witness :
    (connPollReady.state ≠ CState.CLOSED ∧
      expired connPollReady.conn_timeout 3 = false) ∧
    ((resPollReady.polled ≠ none ↔
      (connPollReady.hasPollCb = true ∧
        connPollReady.sndbufsize < connPollReady.maxsndbufsize / 2 ∧
        (connPollReady.state = CState.ESTABLISHED ∨
          connPollReady.state = CState.CLOSE_WAIT))) ∧
      (∀ p, resPollReady.polled = some p →
        p = sub32 connPollReady.maxsndbufsize connPollReady.sndbufsize)) :=
  ⟨⟨by decide, by decide⟩,
    C8_amended uu 3 connPollReady resPollReady (by decide) (by decide) (by decide)⟩

end UTCP

namespace UTCP

/-- Helper: the cwnd clamp of compat.h lines 696-698 is a min. -/
theorem clampToMax (a b : Nat) : (if a > b then b else a) = min a b := by
  rw [Nat.min_def]
  split <;> split <;> omega

/-- Shared fact: the effects of step 3 alone (compat.h lines 664-725) on an
advancing acknowledgment: snd.una = hdr.ack, dupack reset, cwnd grown by
mtu clamped to maxsndbufsize, send buffer moved down by the data bytes
acked, snd.last kept, and the FIN_WAIT_1 to FIN_WAIT_2 and CLOSING to
TIME_WAIT transitions, the latter arming conn_timeout to now + 60 (which
the following step 4 clears again). -/
theorem step3_effects (u : Utcp) (now : Nat) (c : Conn) (hdr : Hdr) (len : Nat)
    (c2 : Conn) (dAck : Int)
    (hdAck : dAck = seqdiff hdr.ack c.snd.una -
      (if c.state = CState.SYN_SENT ∨ c.state = CState.SYN_RECEIVED then 1 else 0))
    (hbuf : (seqdiff c.snd.last c.snd.una).toNat ≤ c.sndbuf.length)
    (hadv : 0 < seqdiff hdr.ack c.snd.una)
    (heq : step3_advance u now c hdr len = some c2) :
    c2.snd.una = u32 hdr.ack ∧
    c2.dupack = 0 ∧
    c2.snd.cwnd = min (u32 (c.snd.cwnd + u.mtu)) c.maxsndbufsize ∧
    c2.snd.last = c.snd.last ∧
    (∀ i : Nat, (dAck + (i : Int) < seqdiff c.snd.last c.snd.una) →
      c2.sndbuf.getD i 0 = c.sndbuf.getD (dAck.toNat + i) 0) ∧
    (c.state = CState.FIN_WAIT_1 →
      (if c2.snd.una = c2.snd.last then c2.state = CState.FIN_WAIT_2
        else c2.state = CState.FIN_WAIT_1)) ∧
    (c.state = CState.CLOSING →
      (if c2.snd.una = c2.snd.last then
          c2.state = CState.TIME_WAIT ∧ c2.conn_timeout = some (now + 60)
        else c2.state = CState.CLOSING)) := by
  have hADV : sub32 hdr.ack c.snd.una ≠ 0 := sub32_ne_of_seqdiff_pos _ _ hadv
  unfold step3_advance at heq
  simp only [] at heq
  rw [if_pos hADV] at heq
  by_cases hδ : (c.state = CState.SYN_SENT ∨ c.state = CState.SYN_RECEIVED)
  all_goals first
    | (rw [if_pos hδ] at heq hdAck
       simp only [seqdiff] at hdAck
       rw [← hdAck] at heq)
    | (rw [if_neg hδ] at heq hdAck
       simp only [seqdiff, sub_zero] at hdAck
       rw [← hdAck] at heq)
  all_goals (
    split at heq
    case _ => exact Option.noConfusion heq
    case _ =>
      split at heq
      case _ => exact Option.noConfusion heq
      case _ =>
        rename_i h1 h2
        generalize hCW : (if u32 (c.snd.cwnd + u.mtu) > c.maxsndbufsize
          then c.maxsndbufsize else u32 (c.snd.cwnd + u.mtu)) = CW at heq
        generalize hBUF : (if dAck.toNat ≠ 0 ∧
            (seqdiff c.snd.last c.snd.una - dAck).toNat ≠ 0 then
            List.take (seqdiff c.snd.last c.snd.una - dAck).toNat
                (List.drop dAck.toNat c.sndbuf) ++
              List.drop (seqdiff c.snd.last c.snd.una - dAck).toNat c.sndbuf
          else c.sndbuf) = BUF at heq
        split at heq
        all_goals try (split at heq)
        all_goals (
          rw [Option.some.injEq] at heq
          subst heq
          refine ⟨by rfl, by rfl, ?_, by rfl, ?_, ?_, ?_⟩ <;>
            first
              | (show CW = min (u32 (c.snd.cwnd + u.mtu)) c.maxsndbufsize
                 rw [← hCW]
                 exact clampToMax _ _)
              | (intro i hi
                 show BUF.getD i 0 = c.sndbuf.getD (dAck.toNat + i) 0
                 rw [← hBUF]
                 by_cases hbb : (dAck.toNat ≠ 0 ∧
                    (seqdiff c.snd.last c.snd.una - dAck).toNat ≠ 0)
                 · rw [if_pos hbb]
                   have hlen : dAck.toNat +
                       (seqdiff c.snd.last c.snd.una - dAck).toNat ≤
                       c.sndbuf.length := by omega
                   have hii : i < (seqdiff c.snd.last c.snd.una - dAck).toNat := by
                     omega
                   exact memmove_getD _ _ _ hlen i hii
                 · rw [if_neg hbb]
                   rcases not_and_or.mp hbb with h0 | h0
                   · rw [show dAck.toNat = 0 by omega, Nat.zero_add]
                   · exfalso
                     omega)
              | (intro hx
                 simp_all [set_state])))

end UTCP

namespace UTCP

end UTCP

namespace UTCP

/-- Shared fact: the egress engine preserves state and conn_timeout, so it
preserves the ESTABLISHED-timer invariant. -/
theorem ack_pinv (u : Utcp) (c : Conn) (f : Bool) (c2 : Conn) (segs : List Seg)
    (hP : Pinv c) (h : ack u c f = some (c2, segs)) : Pinv c2 := by
  rw [ack_frame u c f c2 segs h]
  intro hs
  exact hP hs

/-- Shared fact: RST handling preserves the ESTABLISHED-timer invariant. -/
theorem step2_rst_all (c : Conn) (hdr : Hdr) (hP : Pinv c) :
    StepAll Pinv (step2_rst c hdr) := by
  unfold step2_rst
  split <;> (try split) <;> (try split) <;>
    first
      | trivial
      | exact hP
      | (intro hs; refine absurd hs ?_; simp [set_state]; done)

/-- Shared fact: advancing snd.una preserves the ESTABLISHED-timer
invariant. -/
theorem step3_pinv (u : Utcp) (now : Nat) (c : Conn) (hdr : Hdr) (len : Nat)
    (c2 : Conn) (hP : Pinv c) (h : step3_advance u now c hdr len = some c2) :
    Pinv c2 := by
  unfold step3_advance at h
  simp only [] at h
  repeat' split at h
  all_goals first
    | exact Option.noConfusion h
    | (rw [Option.some.injEq] at h
       subst h
       first
         | (intro hs; exact hP hs)
         | (intro hs; refine absurd hs ?_; simp [set_state]; done))

/-- Shared fact: the timer-update step preserves the ESTABLISHED-timer
invariant. -/
theorem step4_pinv (adv : Nat) (c : Conn) (hP : Pinv c) :
    Pinv (step4_timers adv c) := by
  unfold step4_timers
  split
  · intro _; rfl
  · exact hP

/-- Shared fact: SYN processing preserves the ESTABLISHED-timer invariant
(entering ESTABLISHED goes through set_state, which clears the timer). -/
theorem step5_all (c : Conn) (hdr : Hdr) (adv : Nat) (hP : Pinv c) :
    StepAll Pinv (step5_syn c hdr adv) := by
  unfold step5_syn
  split <;> (try split) <;>
    first
      | trivial
      | exact hP
      | (intro hs; simp [set_state]; done)

/-- Shared fact: handshake completion preserves the ESTABLISHED-timer
invariant. -/
theorem step6h_all (u : Utcp) (a : Bool) (c : Conn) (adv : Nat) (hP : Pinv c) :
    StepAll Pinv (step6_handshake u a c adv) := by
  unfold step6_handshake utcp_accept
  simp only []
  repeat' split
  all_goals
    first
      | trivial
      | exact hP
      | (intro hs; refine absurd hs ?_; simp [set_state]; done)
      | (intro hs; simp [set_state]; done)

/-- Shared fact: payload delivery preserves the ESTABLISHED-timer
invariant. -/
theorem step6d_all (c : Conn) (payload : List Nat) (hP : Pinv c) :
    StepAll Pinv (step6_data c payload) := by
  unfold step6_data
  split <;> (try split) <;>
    first
      | trivial
      | exact hP
      | (intro hs; exact hP hs)

/-- Shared fact: FIN processing preserves the ESTABLISHED-timer invariant
(every transition it makes leaves ESTABLISHED). -/
theorem step7_all (now : Nat) (c : Conn) (hP : Pinv c) :
    StepAll Pinv (step7_fin now c) := by
  unfold step7_fin
  split <;>
    first
      | trivial
      | exact hP
      | (intro hs; refine absurd hs ?_; simp [set_state]; done)

/-- Shared fact: threading a step outcome preserves any predicate that the
outcome and the continuation preserve. -/
theorem runStep_pinv (P : Conn → Prop) (hdr : Hdr) (len : Nat) (r0 : StepRes)
    (k : Conn → Option SegRes) (r : SegRes)
    (hall : StepAll P r0)
    (hk : ∀ cc, P cc → ∀ rr, k cc = some rr → ∀ c2, rr.conn = some c2 → P c2)
    (h : runStep hdr len r0 k = some r) :
    ∀ c2, r.conn = some c2 → P c2 := by
  cases r0 with
  | cont cc => exact hk cc hall r h
  | die => exact Option.noConfusion h
  | reset cc =>
    simp only [runStep] at h
    rw [Option.some.injEq] at h
    subst h
    intro c2 h2
    rw [Option.some.injEq] at h2
    subst h2
    exact hall
  | done oc e =>
    simp only [runStep] at h
    rw [Option.some.injEq] at h
    subst h
    intro c2 h2
    cases oc with
    | none => exact Option.noConfusion h2
    | some cc =>
      rw [Option.some.injEq] at h2
      subst h2
      exact hall

end UTCP

namespace UTCP

/-- Shared fact: processing a matched segment preserves the
ESTABLISHED-timer invariant for the surviving connection. -/
theorem processSegment_pinv (u : Utcp) (a : Bool) (now g : Nat) (c : Conn)
    (hdr : Hdr) (payload : List Nat) (r : SegRes) (hP : Pinv c)
    (h : processSegment u a now g c hdr payload = some r) :
    ∀ c2, r.conn = some c2 → Pinv c2 := by
  have hP1 : Pinv { c with snd := { c.snd with wnd := u32 hdr.wnd } } := fun hs => hP hs
  unfold processSegment at h
  simp only [] at h
  split at h
  · rw [Option.some.injEq] at h
    subst h
    intro c2 h2
    rw [Option.some.injEq] at h2
    subst h2
    exact hP
  · split at h
    · exact Option.noConfusion h
    · split at h
      · split at h
        · rw [Option.some.injEq] at h
          subst h
          intro c2 h2
          rw [Option.some.injEq] at h2
          subst h2
          exact hP
        · split at h
          · exact Option.noConfusion h
          · rename_i cx segsx hak
            rw [Option.some.injEq] at h
            subst h
            intro c2 h2
            rw [Option.some.injEq] at h2
            subst h2
            exact ack_pinv _ _ _ _ _ hP hak
      · split at h
        · split at h
          · rw [Option.some.injEq] at h
            subst h
            intro c2 h2
            rw [Option.some.injEq] at h2
            subst h2
            exact hP1
          · rw [Option.some.injEq] at h
            subst h
            intro c2 h2
            rw [Option.some.injEq] at h2
            subst h2
            exact hP1
        · split at h
          · refine runStep_pinv Pinv _ _ _ _ r (step2_rst_all _ _ hP1) ?_ h
            intro cc hPc rr hrr c2 hc2
            rw [Option.some.injEq] at hrr
            subst hrr
            rw [Option.some.injEq] at hc2
            subst hc2
            exact hPc
          · split at h
            · exact Option.noConfusion h
            · rename_i cs3 hs3
              refine runStep_pinv Pinv _ _ _ _ r ?_ ?_ h
              · split
                · exact step5_all _ _ _ (step4_pinv _ _ (step3_pinv _ _ _ _ _ _ hP1 hs3))
                · exact step4_pinv _ _ (step3_pinv _ _ _ _ _ _ hP1 hs3)
              · intro c4 hp4 rr hrr
                refine runStep_pinv Pinv _ _ _ _ rr (step6h_all _ _ _ _ hp4) ?_ hrr
                intro c5 hp5 rr2 hrr2
                refine runStep_pinv Pinv _ _ _ _ rr2 (step6d_all _ _ hp5) ?_ hrr2
                intro c6 hp6 rr3 hrr3
                refine runStep_pinv Pinv _ _ _ _ rr3 ?_ ?_ hrr3
                · split
                  · exact step7_all _ _ hp6
                  · exact hp6
                · intro c7 hp7 rr4 hrr4
                  split at hrr4
                  · exact Option.noConfusion hrr4
                  · rename_i c8 segs8 hak
                    rw [Option.some.injEq] at hrr4
                    subst hrr4
                    intro c2 hc2
                    rw [Option.some.injEq] at hc2
                    subst hc2
                    exact ack_pinv _ _ _ _ _ hp7 hak

end UTCP

namespace UTCP

/-- Shared fact: buffer growth touches only sndbuf and sndbufsize. -/
theorem sendGrow_state (c : Conn) (b l : Nat) :
    (sendGrow c b l).state = c.state ∧
    (sendGrow c b l).conn_timeout = c.conn_timeout ∧
    (sendGrow c b l).snd = c.snd := by
  unfold sendGrow
  split <;> exact ⟨rfl, rfl, rfl⟩

/-- Shared fact: utcp_send changes neither the state nor conn_timeout. -/
theorem utcp_send_pres (u : Utcp) (c : Conn) (dn : Bool) (d : List Nat)
    (r : CallRes) (h : utcp_send u c dn d = some r) :
    r.conn.state = c.state ∧ r.conn.conn_timeout = c.conn_timeout := by
  unfold utcp_send at h
  simp only [] at h
  repeat' split at h
  all_goals first
    | exact Option.noConfusion h
    | (rw [Option.some.injEq] at h
       subst h
       exact ⟨rfl, rfl⟩)
    | (rw [Option.some.injEq] at h
       subst h
       exact ⟨(sendGrow_state c _ _).1, (sendGrow_state c _ _).2.1⟩)
    | (rename_i c3 segs hak
       rw [Option.some.injEq] at h
       subst h
       rw [ack_frame _ _ _ _ _ hak]
       refine ⟨?_, ?_⟩ <;>
         simp [(sendGrow_state c _ _).1, (sendGrow_state c _ _).2.1])

/-- Shared fact: utcp_shutdown preserves the ESTABLISHED-timer invariant
(no branch of it enters ESTABLISHED). -/
theorem utcp_shutdown_pinv (u : Utcp) (c : Conn) (r : CallRes) (hP : Pinv c)
    (h : utcp_shutdown u c = some r) : Pinv r.conn := by
  unfold utcp_shutdown at h
  simp only [] at h
  repeat' split at h
  all_goals first
    | exact Option.noConfusion h
    | (rw [Option.some.injEq] at h
       subst h
       exact hP)
    | (rw [Option.some.injEq] at h
       subst h
       intro hs
       refine absurd hs ?_
       simp [set_state]
       done)
    | (rename_i c3 segs hak
       rw [Option.some.injEq] at h
       subst h
       intro hs
       rw [ack_frame _ _ _ _ _ hak] at hs
       simp_all [set_state]
       done)

/-- Shared fact: utcp_close preserves the ESTABLISHED-timer invariant. -/
theorem utcp_close_pinv (u : Utcp) (c : Conn) (r : CallRes) (hP : Pinv c)
    (h : utcp_close u c = some r) : Pinv r.conn := by
  unfold utcp_close at h
  split at h
  · exact Option.noConfusion h
  · rename_i r0 hs0
    have hp0 := utcp_shutdown_pinv u c r0 hP hs0
    split at h
    · rw [Option.some.injEq] at h
      subst h
      exact hp0
    · rw [Option.some.injEq] at h
      subst h
      intro hs
      exact hp0 hs

/-- Shared fact: utcp_abort preserves the ESTABLISHED-timer invariant. -/
theorem utcp_abort_pinv (c : Conn) (hP : Pinv c) : Pinv (utcp_abort c).conn := by
  unfold utcp_abort
  simp only []
  repeat' split
  all_goals first
    | exact hP
    | (intro hs
       refine absurd hs ?_
       simp [set_state]
       done)

/-- Shared fact: utcp_accept preserves the ESTABLISHED-timer invariant. -/
theorem utcp_accept_pinv (c : Conn) (hP : Pinv c) : Pinv (utcp_accept c) := by
  unfold utcp_accept
  split
  · exact hP
  · intro hs
    simp [set_state]

/-- Shared fact: the timeout sweep body preserves the ESTABLISHED-timer
invariant for the surviving connection. -/
theorem timeout_pinv (u : Utcp) (now : Nat) (c : Conn) (r : TickRes)
    (hP : Pinv c) (h : timeoutConnStep u now c = some r) :
    ∀ c2, r.conn = some c2 → Pinv c2 := by
  unfold timeoutConnStep at h
  simp only [] at h
  repeat' split at h
  all_goals first
    | exact Option.noConfusion h
    | (rw [Option.some.injEq] at h
       subst h
       intro c2 h2
       first
         | exact Option.noConfusion h2
         | (rw [Option.some.injEq] at h2
            subst h2
            first
              | exact hP
              | (intro hs; exact hP hs)
              | (intro hs
                 refine absurd hs ?_
                 simp
                 done)))

/-- C9: entering ESTABLISHED always goes through set_state, which clears
conn_timeout, and consequently in every reachable connection state an
ESTABLISHED connection has no pending conn_timeout. -/
theorem C9_established_timer_clear :
    (∀ c : Conn, (set_state c CState.ESTABLISHED).conn_timeout = none) ∧
    (∀ c : Conn, Reachable c → c.state = CState.ESTABLISHED →
      c.conn_timeout = none) := by
  constructor
  · intro c
    simp [set_state]
  · intro c hreach
    induction hreach with
    | base_connect u src dst iss now =>
      intro hs
      exact absurd hs (by simp [connectConn, newConn, set_state])
    | base_syn u hdr iss =>
      intro hs
      exact absurd hs (by simp [synRecvConn, newConn, set_state])
    | step_recv u a now g c hdr payload r c2 hre hseg hc2 ih =>
      exact processSegment_pinv u a now g c hdr payload r ih hseg c2 hc2
    | step_send u c dn d r hre hsend ih =>
      intro hs
      have hp := utcp_send_pres u c dn d r hsend
      rw [hp.2]
      exact ih (by rw [← hp.1]; exact hs)
    | step_shutdown u c r hre hsd ih => exact utcp_shutdown_pinv u c r ih hsd
    | step_close u c r hre hcl ih => exact utcp_close_pinv u c r ih hcl
    | step_abort c hre ih => exact utcp_abort_pinv c ih
    | step_accept c hre ih => exact utcp_accept_pinv c ih
    | step_timeout u now c r c2 hre ht hc2 ih => exact timeout_pinv u now c r ih ht c2 hc2
    | step_set_sndbuf c size hre ih => exact fun hs => ih hs
    | step_set_recv_cb c b hre ih => exact fun hs => ih hs
    | step_set_poll_cb c b hre ih => exact fun hs => ih hs
    | step_set_nodelay c b hre ih => exact fun hs => ih hs
    | step_set_keepalive c b hre ih => exact fun hs => ih hs

/-- C9 witness: a concrete reachable ESTABLISHED connection, obtained by
accepting an inbound SYN and letting the application take it, has no
pending conn_timeout. -/
theorem C9_established_timer_clear_witness :
    connAccepted.state = CState.ESTABLISHED ∧ connAccepted.conn_timeout = none :=
  ⟨by decide,
    C9_established_timer_clear.2 connAccepted
      (Reachable.step_accept _ (Reachable.base_syn uu hdrSynNew 5)) (by decide)⟩

end UTCP

namespace UTCP

/-- Shared arithmetic fact: a segment never exceeds what is left. -/
theorem segSize_le_left (mtu left : Nat) : segSize mtu left ≤ left := by
  unfold segSize; split <;> omega

/-- Shared arithmetic fact: a segment never exceeds the MTU. -/
theorem segSize_le_mtu (mtu left : Nat) : segSize mtu left ≤ mtu := by
  unfold segSize; split <;> omega

/-- Shared bitwise fact: adding the FIN flag makes the FIN test succeed. -/
theorem lor_FIN_and_FIN (x : Nat) : (x ||| FIN) &&& FIN ≠ 0 := by
  have h : FIN = 2 ^ 2 := rfl
  rw [h, Nat.and_two_pow, Nat.testBit_lor, Nat.testBit_two_pow_self, Bool.or_true]
  decide

/-- Shared fact: getLast? skips the head of a list with a nonempty tail. -/
theorem getLast_cons_ne (a : Seg) (l : List Seg) (h : l ≠ []) :
    (a :: l).getLast? = l.getLast? := by
  cases l with
  | nil => exact absurd rfl h
  | cons b t => rfl

/-- Shared fact: the iteration cannot claim a FIN while bytes remain. -/
theorem finSeg_false (st : CState) (mtu left : Nat)
    (h : ¬ left - segSize mtu left = 0) :
    finSeg st (left - segSize mtu left) (segSize mtu left) = false := by
  unfold finSeg
  simp only [decide_eq_false_iff_not]
  rintro ⟨_, h2, _⟩
  exact h h2

/-- Shared fact: every segment of an egress burst carries the connection's
ports, ack number and window, at most one MTU of payload, and the running
control word with at most a FIN added. -/
theorem ackLoop_mem (mtu : Nat) (st : CState) (buf : List Nat)
    (src dst a0 w0 : Nat) :
    ∀ (fuel nxt off left ctl n : Nat) (segs : List Seg),
      ackLoop mtu st buf src dst a0 w0 fuel nxt off left ctl = some (n, segs) →
      ∀ s ∈ segs, s.src = src ∧ s.dst = dst ∧ s.ack = a0 ∧ s.wnd = w0 ∧
        s.payload.length ≤ mtu ∧ (s.ctl = ctl ∨ s.ctl = ctl ||| FIN) := by
  intro fuel
  induction fuel with
  | zero =>
    intro nxt off left ctl n segs h
    exact Option.noConfusion h
  | succ fuel ih =>
    intro nxt off left ctl n segs h s hs
    unfold ackLoop at h
    simp only [] at h
    split at h
    · rw [Option.some.injEq, Prod.mk.injEq] at h
      obtain ⟨h1, h2⟩ := h
      subst h2
      rw [List.mem_singleton] at hs
      subst hs
      refine ⟨rfl, rfl, rfl, rfl, ?_, ?_⟩
      · refine le_trans (List.length_take_le _ _) ?_
        have hm := segSize_le_mtu mtu left
        split <;> omega
      · split
        · exact Or.inr rfl
        · exact Or.inl rfl
    · rename_i hz0
      split at h
      · exact Option.noConfusion h
      · rename_i n2 segs2 hp
        rw [Option.some.injEq, Prod.mk.injEq] at h
        obtain ⟨h1, h2⟩ := h
        subst h2
        rw [List.mem_cons] at hs
        rcases hs with hs | hs
        · subst hs
          refine ⟨rfl, rfl, rfl, rfl, ?_, ?_⟩
          · refine le_trans (List.length_take_le _ _) ?_
            have hm := segSize_le_mtu mtu left
            split <;> omega
          · split
            · exact Or.inr rfl
            · exact Or.inl rfl
        · rw [finSeg_false st mtu left hz0] at hp
          simp only [Bool.false_eq_true, if_false] at hp
          exact ih _ _ _ _ _ _ hp s hs

end UTCP

namespace UTCP

/-- Shared structural description of the egress burst: under enough fuel the
iteration fills segments from the send buffer in order (SegChain), spans
exactly the requested byte count, returns the advanced sequence number, and
puts a FIN on the last segment exactly when the connection is in FIN_WAIT_1
or CLOSING and at least one byte was sent. -/
theorem ackLoop_chain (mtu : Nat) (st : CState) (buf : List Nat)
    (src dst a0 w0 : Nat) :
    ∀ (fuel nxt off left ctl n : Nat) (segs : List Seg),
      ctl &&& FIN = 0 →
      off + left ≤ buf.length →
      ackLoop mtu st buf src dst a0 w0 fuel nxt off left ctl = some (n, segs) →
      SegChain buf nxt off segs ∧ sumSegLen segs = left ∧ n = u32 (nxt + left) ∧
      segs ≠ [] ∧
      (∀ s ∈ segs.dropLast, s.ctl = ctl) ∧
      (∀ s, segs.getLast? = some s →
        s.ctl = if (st = CState.FIN_WAIT_1 ∨ st = CState.CLOSING) ∧ left ≠ 0
          then ctl ||| FIN else ctl) := by
  intro fuel
  induction fuel with
  | zero =>
    intro nxt off left ctl n segs hctl hbuf h
    exact Option.noConfusion h
  | succ fuel ih =>
    intro nxt off left ctl n segs hctl hbuf h
    have hsz := segSize_le_left mtu left
    unfold ackLoop at h
    simp only [] at h
    split at h
    · rename_i hz0
      have hseq : segSize mtu left = left := by omega
      rw [Option.some.injEq, Prod.mk.injEq] at h
      obtain ⟨h1, h2⟩ := h
      subst h1
      subst h2
      by_cases hfin : finSeg st (left - segSize mtu left) (segSize mtu left) = true
      · have hparts : st ≠ CState.ESTABLISHED ∧ left - segSize mtu left = 0 ∧
            segSize mtu left ≠ 0 ∧ (st = CState.FIN_WAIT_1 ∨ st = CState.CLOSING) := by
          simpa [finSeg] using hfin
        simp only [hfin, if_true]
        have hpl : ((buf.drop off).take (segSize mtu left - 1)).length
            = segSize mtu left - 1 := by
          rw [List.length_take, List.length_drop]; omega
        refine ⟨⟨rfl, ?_, trivial⟩, ?_, ?_, by simp, by simp, ?_⟩
        · rw [hpl]
        · simp only [sumSegLen, List.map_cons, List.map_nil, List.sum_cons,
            List.sum_nil, segLen]
          rw [if_pos (lor_FIN_and_FIN ctl), hpl]
          omega
        · rw [hseq]
        · intro s hs
          simp only [List.getLast?_singleton, Option.some.injEq] at hs
          subst hs
          rw [if_pos ⟨hparts.2.2.2, by omega⟩]
      · simp only [Bool.not_eq_true] at hfin
        simp only [hfin, Bool.false_eq_true, if_false]
        have hnot : ¬((st = CState.FIN_WAIT_1 ∨ st = CState.CLOSING) ∧ left ≠ 0) := by
          rintro ⟨hst, hl⟩
          have hft : finSeg st (left - segSize mtu left) (segSize mtu left) = true := by
            simp only [finSeg, decide_eq_true_eq]
            refine ⟨?_, by omega, by omega, hst⟩
            rcases hst with h | h <;> simp [h]
          rw [hft] at hfin
          exact Bool.noConfusion hfin
        have hpl : ((buf.drop off).take (segSize mtu left)).length
            = segSize mtu left := by
          rw [List.length_take, List.length_drop]; omega
        refine ⟨⟨rfl, ?_, trivial⟩, ?_, ?_, by simp, by simp, ?_⟩
        · rw [hpl]
        · simp only [sumSegLen, List.map_cons, List.map_nil, List.sum_cons,
            List.sum_nil, segLen]
          rw [if_neg (by simp [hctl]), hpl]
          omega
        · rw [hseq]
        · intro s hs
          simp only [List.getLast?_singleton, Option.some.injEq] at hs
          subst hs
          rw [if_neg hnot]
    · rename_i hz0
      rw [finSeg_false st mtu left hz0] at h
      simp only [Bool.false_eq_true, if_false] at h
      split at h
      · exact Option.noConfusion h
      · rename_i n2 segs2 hp
        rw [Option.some.injEq, Prod.mk.injEq] at h
        obtain ⟨h1, h2⟩ := h
        subst h2
        subst h1
        obtain ⟨hchain, hsum, hn, hne, hdrop, hlast⟩ :=
          ih _ _ _ _ _ _ hctl (by omega) hp
        have hpl : ((buf.drop off).take (segSize mtu left)).length
            = segSize mtu left := by
          rw [List.length_take, List.length_drop]; omega
        have hsl : segLen ⟨src, dst, nxt, a0, w0, ctl,
            (buf.drop off).take (segSize mtu left)⟩ = segSize mtu left := by
          simp only [segLen]
          rw [if_neg (by simp [hctl]), hpl]
          omega
        refine ⟨⟨rfl, ?_, ?_⟩, ?_, ?_, by simp, ?_, ?_⟩
        · rw [hpl]
        · rw [hsl]
          exact hchain
        · simp only [sumSegLen, List.map_cons, List.sum_cons] at hsum ⊢
          rw [hsl]
          omega
        · rw [hn, u32_add_left]
          congr 1
          omega
        · intro s hs
          rw [List.dropLast_cons_of_ne_nil hne, List.mem_cons] at hs
          rcases hs with hs | hs
          · subst hs; rfl
          · exact hdrop s hs
        · intro s hs
          rw [getLast_cons_ne _ _ hne] at hs
          have hc := hlast s hs
          by_cases hst : st = CState.FIN_WAIT_1 ∨ st = CState.CLOSING
          · rw [if_pos ⟨hst, by omega⟩] at hc
            rw [if_pos ⟨hst, by omega⟩]
            exact hc
          · rw [if_neg (by rintro ⟨h1, _⟩; exact hst h1)] at hc
            rw [if_neg (by rintro ⟨h1, _⟩; exact hst h1)]
            exact hc

end UTCP

namespace UTCP

/-- Shared fact: every segment the egress engine emits carries the
connection's ports, its rcv.nxt as ack, its snd.wnd as window, at most one
MTU of payload, and ACK control with at most a FIN added. -/
theorem ack_mem (u : Utcp) (c : Conn) (f : Bool) (c2 : Conn) (segs : List Seg)
    (h : ack u c f = some (c2, segs)) :
    ∀ s ∈ segs, s.src = c.src ∧ s.dst = c.dst ∧ s.ack = c.rcv.nxt ∧
      s.wnd = c.snd.wnd ∧ s.payload.length ≤ u.mtu ∧
      (s.ctl = ACK ∨ s.ctl = ACK ||| FIN) := by
  unfold ack at h
  split at h
  · exact Option.noConfusion h
  · split at h
    · rw [Option.some.injEq, Prod.mk.injEq] at h
      obtain ⟨h1, h2⟩ := h
      subst h2
      intro s hs
      simp at hs
    · split at h
      · exact Option.noConfusion h
      · rename_i n segs0 heq
        rw [Option.some.injEq, Prod.mk.injEq] at h
        obtain ⟨h1, h2⟩ := h
        subst h2
        exact ackLoop_mem u.mtu c.state c.sndbuf c.src c.dst c.rcv.nxt c.snd.wnd
          _ _ _ _ _ _ _ heq

/-- C3: the egress engine ack emits segments of at most mtu payload bytes
carrying src, dst, ack = rcv.nxt, wnd = snd.wnd; consecutive segments take
their seq and payload from the running snd.nxt and the matching send-buffer
offset; snd.nxt advances by the total span and no other field changes; with
nothing to send after the congestion-window clamp and sendatleastone false,
nothing is emitted and nothing changes.  Amended from the claim: the burst
spans the clamped window ackWindow, not everything pending, and the FIN in
FIN_WAIT_1 or CLOSING is placed on the last segment of the clamped burst
whenever it is nonempty, even when that segment does not reach snd.last. -/
theorem C3_ack_engine (u : Utcp) (c : Conn) (f : Bool) (c2 : Conn) (segs : List Seg)
    (hbuf : (seqdiff c.snd.nxt c.snd.una).toNat + (ackWindow c).toNat ≤
      c.sndbuf.length)
    (h : ack u c f = some (c2, segs)) :
    c2 = { c with snd := { c.snd with nxt := c2.snd.nxt } } ∧
    (∀ s ∈ segs, s.src = c.src ∧ s.dst = c.dst ∧ s.ack = c.rcv.nxt ∧
      s.wnd = c.snd.wnd ∧ s.payload.length ≤ u.mtu ∧
      (s.ctl = ACK ∨ s.ctl = ACK ||| FIN)) ∧
    (ackWindow c = 0 ∧ f = false → c2 = c ∧ segs = []) ∧
    (¬(ackWindow c = 0 ∧ f = false) →
      SegChain c.sndbuf c.snd.nxt (seqdiff c.snd.nxt c.snd.una).toNat segs ∧
      sumSegLen segs = (ackWindow c).toNat ∧
      c2.snd.nxt = u32 (c.snd.nxt + (ackWindow c).toNat) ∧
      segs ≠ [] ∧
      (∀ s ∈ segs.dropLast, s.ctl = ACK) ∧
      (∀ s, segs.getLast? = some s →
        s.ctl = if (c.state = CState.FIN_WAIT_1 ∨ c.state = CState.CLOSING) ∧
            (ackWindow c).toNat ≠ 0 then ACK ||| FIN else ACK)) := by
  refine ⟨ack_frame u c f c2 segs h, ack_mem u c f c2 segs h, ?_, ?_⟩
  · intro hc
    unfold ack at h
    rw [if_pos hc] at h
    split at h
    · exact Option.noConfusion h
    · rw [Option.some.injEq, Prod.mk.injEq] at h
      exact ⟨h.1.symm, h.2.symm⟩
  · intro hc
    unfold ack at h
    rw [if_neg hc] at h
    split at h
    · exact Option.noConfusion h
    · split at h
      · exact Option.noConfusion h
      · rename_i n segs0 heq
        rw [Option.some.injEq, Prod.mk.injEq] at h
        obtain ⟨h1, h2⟩ := h
        subst h2
        obtain ⟨hchain, hsum, hn, hne, hdrop, hlast⟩ :=
          ackLoop_chain u.mtu c.state c.sndbuf c.src c.dst c.rcv.nxt c.snd.wnd
            _ _ _ _ _ _ _ (by decide) hbuf heq
        refine ⟨hchain, hsum, ?_, hne, hdrop, hlast⟩
        rw [← h1]
        exact hn

end UTCP

namespace UTCP

/-- C3 counterexample: in FIN_WAIT_1 with 7 sequence numbers pending
(6 bytes and the FIN) but a congestion window admitting only 5, ack emits a
single segment of 4 payload bytes with the FIN flag set, although snd.nxt
stops at 5 with snd.last 7 still uncovered: the FIN is placed at the end of
the clamped burst, not on the segment covering the last pending sequence
number as the claim states. -/
theorem C3_counterexample :
    ack u10 connFw1Clamped false =
      some ({ connFw1Clamped with snd := { connFw1Clamped.snd with nxt := 5 } },
        [⟨1, 2, 0, 100, 9, ACK ||| FIN, [1, 2, 3, 4]⟩]) ∧
    (ACK ||| FIN) &&& FIN ≠ 0 ∧
    seqdiff connFw1Clamped.snd.last 5 ≠ 0 := by decide

/-- C3 witness: the amended theorem applied to the clamped FIN_WAIT_1
connection; the last emitted segment carries the FIN because the clamped
window is nonempty. -/
theorem C3_ack_engine_witness :
    ((seqdiff connFw1Clamped.snd.nxt connFw1Clamped.snd.una).toNat +
        (ackWindow connFw1Clamped).toNat ≤ connFw1Clamped.sndbuf.length) ∧
    (Seg.mk 1 2 0 100 9 (ACK ||| FIN) [1, 2, 3, 4]).ctl =
      (if (connFw1Clamped.state = CState.FIN_WAIT_1 ∨
            connFw1Clamped.state = CState.CLOSING) ∧
          (ackWindow connFw1Clamped).toNat ≠ 0 then ACK ||| FIN else ACK) :=
  ⟨by decide,
    ((C3_ack_engine u10 connFw1Clamped false
        { connFw1Clamped with snd := { connFw1Clamped.snd with nxt := 5 } }
        [⟨1, 2, 0, 100, 9, ACK ||| FIN, [1, 2, 3, 4]⟩]
        (by decide) (by decide)).2.2.2 (by decide)).2.2.2.2.2
      ⟨1, 2, 0, 100, 9, ACK ||| FIN, [1, 2, 3, 4]⟩ rfl⟩

end UTCP

namespace UTCP

/-- C1 counterexample: a stray segment with wrong sequence number and no
flags hits an idle ESTABLISHED connection while the uninitialized
prevrcvnxt happens to equal rcv.nxt: the segment is unacceptable and not a
RST, yet processing emits no ACK at all, against the claim that every
unacceptable non-RST segment provokes an ACK reply. -/
theorem C1_counterexample :
    segAcceptable connEstIdle hdrStray = false ∧
    hdrStray.ctl &&& RST = 0 ∧
    processSegment uu false 0 100 connEstIdle hdrStray [] =
      some ⟨some connEstIdle, [], none⟩ := by decide

/-- C1: acceptability is as claimed (every segment in SYN_SENT, otherwise
exactly hdr.seq = rcv.nxt), and an unacceptable RST is dropped with no
change and no output.  Amended from the claim for the unacceptable non-RST
case: processing delegates to the egress engine with the flag read from the
uninitialized prevrcvnxt (modelled by garbage), so an ACK reply is emitted
only when that engine emits; whatever is emitted carries ack = rcv.nxt, and
the connection may still change, though only in snd.nxt. -/
theorem C1_unacceptable (u : Utcp) (a : Bool) (now g : Nat) (c : Conn)
    (hdr : Hdr) (payload : List Nat) (r : SegRes)
    (hst : c.state ≠ CState.CLOSED) (hst2 : c.state ≠ CState.LISTEN)
    (hacc : segAcceptable c hdr = false)
    (h : processSegment u a now g c hdr payload = some r) :
    (c.state ≠ CState.SYN_SENT ∧ hdr.seq ≠ c.rcv.nxt) ∧
    (hdr.ctl &&& RST ≠ 0 → r = ⟨some c, [], none⟩) ∧
    (hdr.ctl &&& RST = 0 →
      ack u c (g ≠ c.rcv.nxt) = some (r.conn.getD c, r.segs) ∧
      r.conn.getD c = { c with snd := { c.snd with nxt := (r.conn.getD c).snd.nxt } } ∧
      r.err = none ∧
      (∀ s ∈ r.segs, s.src = c.src ∧ s.dst = c.dst ∧ s.ack = c.rcv.nxt ∧
        s.wnd = c.snd.wnd)) := by
  have hchar : c.state ≠ CState.SYN_SENT ∧ hdr.seq ≠ c.rcv.nxt := by
    unfold segAcceptable at hacc
    split at hacc
    · exact Bool.noConfusion hacc
    · rename_i hss
      rw [decide_eq_false_iff_not] at hacc
      exact ⟨hss, hacc⟩
  unfold processSegment at h
  simp only [] at h
  rw [if_neg hst, if_neg hst2, if_pos hacc] at h
  refine ⟨hchar, ?_, ?_⟩
  · intro hrst
    rw [if_pos hrst, Option.some.injEq] at h
    exact h.symm
  · intro hrst
    rw [if_neg (by simp [hrst])] at h
    split at h
    · exact Option.noConfusion h
    · rename_i cx segsx hak
      rw [Option.some.injEq] at h
      subst h
      refine ⟨hak, ack_frame u c _ cx segsx hak, rfl, ?_⟩
      intro s hs
      obtain ⟨h1, h2, h3, h4, _, _⟩ := ack_mem u c _ cx segsx hak s hs
      exact ⟨h1, h2, h3, h4⟩

/-- C1 witness: the amended theorem applied to the stray segment on the
idle ESTABLISHED connection with the uninitialized flag reading 100: the
delegated egress call is exactly what processing returned, here emitting
nothing. -/
theorem C1_unacceptable_witness :
    (connEstIdle.state ≠ CState.CLOSED) ∧
    (connEstIdle.state ≠ CState.LISTEN) ∧
    segAcceptable connEstIdle hdrStray = false ∧
    hdrStray.ctl &&& RST = 0 ∧
    ack uu connEstIdle ((100 : Nat) ≠ connEstIdle.rcv.nxt) =
      some ((SegRes.mk (some connEstIdle) [] none).conn.getD connEstIdle,
        (SegRes.mk (some connEstIdle) [] none).segs) :=
  ⟨by decide, by decide, by decide, by decide,
    ((C1_unacceptable uu false 0 100 connEstIdle hdrStray []
        ⟨some connEstIdle, [], none⟩ (by decide) (by decide) (by decide)
        (by decide)).2.2 (by decide)).1⟩

end UTCP

namespace UTCP

/-- Shared arithmetic fact: reducing the minuend does not change seqdiff. -/
theorem seqdiff_u32_left (a b : Nat) : seqdiff (u32 a) b = seqdiff a b := by
  unfold seqdiff
  rw [sub32_u32_left]

/-- Shared arithmetic fact: seqdiff of a value with itself is nonnegative. -/
theorem seqdiff_self_le (a : Nat) : (0 : Int) ≤ seqdiff a a :=
  le_of_eq (seqdiff_self a).symm

/-- Shared fact: set_state to a state other than SYN_SENT preserves the
pre-payload monotonicity tracking. -/
theorem mono2_set_state (c x : Conn) (s : CState) (hs : s ≠ CState.SYN_SENT)
    (hx : Mono2 c x) : Mono2 c (set_state x s) :=
  ⟨hs, hx.2.1, hx.2.2⟩

/-- Shared fact: step 2 (RST handling) preserves the monotonicity tracking
on every surviving connection. -/
theorem step2_mono (c x : Conn) (hdr : Hdr) (hx : Mono2 c x) :
    StepAll (Mono2 c) (step2_rst x hdr) := by
  unfold step2_rst
  repeat' split
  all_goals first
    | trivial
    | exact hx
    | exact mono2_set_state c x _ (fun hq => CState.noConfusion hq) hx

/-- Shared fact: step 3 never moves snd.una back and leaves rcv.nxt alone:
the assert data_acked >= 0 rules out a rollback. -/
theorem step3_mono (u : Utcp) (now : Nat) (c x : Conn) (hdr : Hdr) (len : Nat)
    (y : Conn)
    (hss : x.state ≠ CState.SYN_SENT)
    (huna : x.snd.una = c.snd.una)
    (hrcv : x.rcv.nxt = c.rcv.nxt)
    (h : step3_advance u now x hdr len = some y) :
    Mono2 c y := by
  have hun0 : (0 : Int) ≤ seqdiff x.snd.una c.snd.una := by
    rw [huna]
    exact seqdiff_self_le _
  unfold step3_advance at h
  simp only [] at h
  split at h
  · rename_i hadv
    by_cases hP : x.state = CState.SYN_SENT ∨ x.state = CState.SYN_RECEIVED
    · rw [if_pos hP] at h
      split at h
      · exact Option.noConfusion h
      · rename_i hna
        have hu : (0 : Int) ≤ seqdiff (u32 hdr.ack) c.snd.una := by
          rw [seqdiff_u32_left, ← huna]
          show (0 : Int) ≤ toInt32 (sub32 hdr.ack x.snd.una)
          omega
        split at h
        · exact Option.noConfusion h
        · repeat' split at h
          all_goals rw [Option.some.injEq] at h
          all_goals subst h
          all_goals first
            | exact ⟨fun hq => CState.noConfusion hq, hu, hrcv⟩
            | exact ⟨hss, hu, hrcv⟩
    · rw [if_neg hP] at h
      split at h
      · exact Option.noConfusion h
      · rename_i hna
        have hu : (0 : Int) ≤ seqdiff (u32 hdr.ack) c.snd.una := by
          rw [seqdiff_u32_left, ← huna]
          show (0 : Int) ≤ toInt32 (sub32 hdr.ack x.snd.una)
          omega
        split at h
        · exact Option.noConfusion h
        · repeat' split at h
          all_goals rw [Option.some.injEq] at h
          all_goals subst h
          all_goals first
            | exact ⟨fun hq => CState.noConfusion hq, hu, hrcv⟩
            | exact ⟨hss, hu, hrcv⟩
  · rw [Option.some.injEq] at h
    subst h
    split
    · exact ⟨hss, hun0, hrcv⟩
    · exact ⟨hss, hun0, hrcv⟩

/-- Shared fact: step 4 (timer updates) preserves the monotonicity
tracking. -/
theorem step4_mono (adv : Nat) (c y : Conn) (hy : Mono2 c y) :
    Mono2 c (step4_timers adv y) := by
  unfold step4_timers
  split
  · exact ⟨hy.1, hy.2.1, hy.2.2⟩
  · exact hy

/-- Shared fact: outside SYN_SENT, step 5 (SYN handling) preserves the
monotonicity tracking on every surviving connection. -/
theorem step5_mono (c y : Conn) (hdr : Hdr) (adv : Nat) (hy : Mono2 c y) :
    StepAll (Mono2 c) (step5_syn y hdr adv) := by
  unfold step5_syn
  split
  all_goals first
    | trivial
    | exact hy
    | (rename_i heq; exact absurd heq hy.1)

/-- Shared fact: the handshake part of step 6 preserves the monotonicity
tracking on every surviving connection. -/
theorem step6h_mono (u : Utcp) (a : Bool) (c y : Conn) (adv : Nat)
    (hy : Mono2 c y) : StepAll (Mono2 c) (step6_handshake u a y adv) := by
  have hacc : Mono2 c (utcp_accept y) := by
    unfold utcp_accept
    split
    · exact hy
    · exact ⟨fun hq => CState.noConfusion hq, hy.2.1, hy.2.2⟩
  unfold step6_handshake
  simp only []
  repeat' split
  all_goals first
    | trivial
    | exact hy
    | exact hacc
    | exact ⟨fun hq => CState.noConfusion hq, hy.2.1, hy.2.2⟩
    | exact ⟨fun hq => CState.noConfusion hq, hacc.2.1, hacc.2.2⟩

/-- Shared fact: the payload part of step 6 advances rcv.nxt by at most the
payload length on every surviving connection. -/
theorem step6d_mono (c y : Conn) (payload : List Nat) (hy : Mono2 c y) :
    StepAll (Mono3 payload.length c) (step6_data y payload) := by
  unfold step6_data
  repeat' split
  all_goals first
    | trivial
    | exact ⟨hy.2.1, Or.inl hy.2.2⟩
    | exact ⟨hy.2.1, Or.inr (by show u32 (y.rcv.nxt + payload.length) = _; rw [hy.2.2])⟩

/-- Shared fact: step 7 (FIN handling) advances rcv.nxt by at most one more
on every surviving connection. -/
theorem step7_mono (len : Nat) (now : Nat) (c y : Conn)
    (hy : Mono3 len c y) : StepAll (Mono4 len c) (step7_fin now y) := by
  unfold step7_fin
  simp only []
  split
  all_goals first
    | trivial
    | exact ⟨hy.1, hy.2.elim Or.inl (fun h2 => Or.inr (Or.inl h2))⟩
    | (rcases hy.2 with hr | hr
       · exact ⟨hy.1, Or.inr (Or.inr (Or.inl
           (by show u32 (y.rcv.nxt + 1) = _; rw [hr])))⟩
       · exact ⟨hy.1, Or.inr (Or.inr (Or.inr
           (by show u32 (y.rcv.nxt + 1) = _
               rw [hr, u32_add_left, Nat.add_assoc])))⟩)

/-- Shared fact: transports a predicate through one threaded step: direct
returns must satisfy the target, continuations are handled by the rest. -/
theorem runStep_mono (P Q : Conn → Prop) (hdr : Hdr) (len : Nat) (r0 : StepRes)
    (k : Conn → Option SegRes) (r : SegRes)
    (hall : StepAll P r0)
    (himp : ∀ z, P z → Q z)
    (hk : ∀ cc, P cc → ∀ rr, k cc = some rr → ∀ c2, rr.conn = some c2 → Q c2)
    (h : runStep hdr len r0 k = some r) :
    ∀ c2, r.conn = some c2 → Q c2 := by
  cases r0 with
  | cont cc => exact hk cc hall r h
  | die => exact Option.noConfusion h
  | reset cc =>
    simp only [runStep] at h
    rw [Option.some.injEq] at h
    subst h
    intro c2 h2
    rw [Option.some.injEq] at h2
    subst h2
    exact himp cc hall
  | done oc e =>
    simp only [runStep] at h
    rw [Option.some.injEq] at h
    subst h
    intro c2 h2
    cases oc with
    | none => exact Option.noConfusion h2
    | some cc =>
      rw [Option.some.injEq] at h2
      subst h2
      exact himp cc hall

/-- Shared fact: pre-payload tracking implies the final tracking. -/
theorem mono2_to_mono4 (len : Nat) (c x : Conn) (h : Mono2 c x) :
    Mono4 len c x :=
  ⟨h.2.1, Or.inl h.2.2⟩

/-- Shared fact: post-payload tracking implies the final tracking. -/
theorem mono3_to_mono4 (len : Nat) (c x : Conn) (h : Mono3 len c x) :
    Mono4 len c x :=
  ⟨h.1, h.2.elim Or.inl (fun h2 => Or.inr (Or.inl h2))⟩

/-- Shared fact: the egress engine preserves the final tracking. -/
theorem ack_mono4 (len : Nat) (u : Utcp) (c x : Conn) (f : Bool) (c2 : Conn)
    (segs : List Seg) (hx : Mono4 len c x) (h : ack u x f = some (c2, segs)) :
    Mono4 len c c2 := by
  rw [ack_frame u x f c2 segs h]
  exact ⟨hx.1, hx.2⟩

end UTCP

namespace UTCP

/-- C4 counterexample: in SYN_SENT every segment is acceptable, and an
accepted SYN+ACK whose initial sequence number has the high bit set makes
rcv.nxt jump so far that under seqdiff the new value reads as a decrease. -/
theorem C4_counterexample :
    segAcceptable connSynSent hdrSynAckHigh = true ∧
    processSegment uu false 0 0 connSynSent hdrSynAckHigh [] =
      some ⟨some connSynAcked, [⟨1, 2, 1001, 2147483649, 5, ACK, []⟩], none⟩ ∧
    seqdiff connSynAcked.rcv.nxt connSynSent.rcv.nxt < 0 := by decide

/-- C4: processing an inbound segment never decreases rcv.nxt or snd.una
under seqdiff.  Amended from the claim: the guarantee needs the connection
not to be in SYN_SENT (where the accepted SYN+ACK overwrites rcv.nxt with
the peer's arbitrary initial sequence number) and a datagram shorter than
2^31 - 1 bytes. -/
theorem C4_amended (u : Utcp) (a : Bool) (now g : Nat) (c : Conn) (hdr : Hdr)
    (payload : List Nat) (r : SegRes) (c2 : Conn)
    (hss : c.state ≠ CState.SYN_SENT)
    (hlen : payload.length + 1 < 2147483648)
    (h : processSegment u a now g c hdr payload = some r)
    (hc2 : r.conn = some c2) :
    0 ≤ seqdiff c2.rcv.nxt c.rcv.nxt ∧ 0 ≤ seqdiff c2.snd.una c.snd.una := by
  have key : ∀ z, r.conn = some z → Mono4 payload.length c z := by
    unfold processSegment at h
    simp only [] at h
    split at h
    · rw [Option.some.injEq] at h
      subst h
      intro z hz
      rw [Option.some.injEq] at hz
      subst hz
      exact ⟨seqdiff_self_le _, Or.inl rfl⟩
    · split at h
      · exact Option.noConfusion h
      · split at h
        · split at h
          · rw [Option.some.injEq] at h
            subst h
            intro z hz
            rw [Option.some.injEq] at hz
            subst hz
            exact ⟨seqdiff_self_le _, Or.inl rfl⟩
          · split at h
            · exact Option.noConfusion h
            · rename_i cx segsx hak
              rw [Option.some.injEq] at h
              subst h
              intro z hz
              rw [Option.some.injEq] at hz
              subst hz
              exact ack_mono4 _ u c c _ cx segsx ⟨seqdiff_self_le _, Or.inl rfl⟩ hak
        · have hm1 : Mono2 c { c with snd := { c.snd with wnd := u32 hdr.wnd } } :=
            ⟨hss, seqdiff_self_le _, rfl⟩
          split at h
          · split at h
            · rw [Option.some.injEq] at h
              subst h
              intro z hz
              rw [Option.some.injEq] at hz
              subst hz
              exact ⟨seqdiff_self_le _, Or.inl rfl⟩
            · rw [Option.some.injEq] at h
              subst h
              intro z hz
              rw [Option.some.injEq] at hz
              subst hz
              exact ⟨seqdiff_self_le _, Or.inl rfl⟩
          · split at h
            · refine runStep_mono (Mono2 c) (Mono4 payload.length c) _ _ _ _ r
                (step2_mono c _ hdr hm1) (mono2_to_mono4 _ c) ?_ h
              intro cc hcc rr hrr z hz
              rw [Option.some.injEq] at hrr
              subst hrr
              rw [Option.some.injEq] at hz
              subst hz
              exact mono2_to_mono4 _ c cc hcc
            · split at h
              · exact Option.noConfusion h
              · rename_i cs3 hs3
                have hm3 : Mono2 c cs3 :=
                  step3_mono u now c { c with snd := { c.snd with wnd := u32 hdr.wnd } }
                    hdr payload.length cs3 hss rfl rfl hs3
                refine runStep_mono (Mono2 c) (Mono4 payload.length c) _ _ _ _ r
                  ?_ (mono2_to_mono4 _ c) ?_ h
                · split
                  · exact step5_mono c _ hdr _ (step4_mono _ c cs3 hm3)
                  · exact step4_mono _ c cs3 hm3
                · intro c4 h4 rr hrr
                  refine runStep_mono (Mono2 c) (Mono4 payload.length c) _ _ _ _ rr
                    (step6h_mono u a c c4 _ h4) (mono2_to_mono4 _ c) ?_ hrr
                  intro c5 h5 rr2 hrr2
                  refine runStep_mono (Mono3 payload.length c) (Mono4 payload.length c)
                    _ _ _ _ rr2 (step6d_mono c c5 payload h5) (mono3_to_mono4 _ c) ?_ hrr2
                  intro c6 h6 rr3 hrr3
                  refine runStep_mono (Mono4 payload.length c) (Mono4 payload.length c)
                    _ _ _ _ rr3 ?_ (fun z hz => hz) ?_ hrr3
                  · split
                    · exact step7_mono payload.length now c c6 h6
                    · exact mono3_to_mono4 _ c c6 h6
                  · intro c7 h7 rr4 hrr4
                    split at hrr4
                    · exact Option.noConfusion hrr4
                    · rename_i c8 segs8 hak
                      rw [Option.some.injEq] at hrr4
                      subst hrr4
                      intro z hz
                      rw [Option.some.injEq] at hz
                      subst hz
                      exact ack_mono4 _ u c c7 _ c8 segs8 h7 hak
  have hm := key c2 hc2
  refine ⟨?_, hm.1⟩
  rcases hm.2 with h1 | h1 | h1 | h1
  · rw [h1]
    exact seqdiff_self_le _
  · rw [h1]
    exact seqdiff_add_small _ _ (by omega)
  · rw [h1]
    exact seqdiff_add_small _ _ (by omega)
  · rw [h1]
    exact seqdiff_add_small _ _ (by omega)

/-- C4 witness: the amended theorem applied to the CLOSING connection
receiving the ACK that acknowledges everything it had outstanding. -/
theorem C4_amended_witness :
    (connClosing.state ≠ CState.SYN_SENT) ∧
    (([] : List Nat).length + 1 < 2147483648) ∧
    (0 ≤ seqdiff connClosingDone.rcv.nxt connClosing.rcv.nxt ∧
      0 ≤ seqdiff connClosingDone.snd.una connClosing.snd.una) :=
  ⟨by decide, by decide,
    C4_amended uu false 7 3 connClosing hdrAckAll [] ⟨some connClosingDone, [], none⟩
      connClosingDone (by decide) (by decide) (by decide) rfl⟩

end UTCP

namespace UTCP

/-- C2 counterexample: the ACK acknowledging everything a CLOSING
connection has outstanding does move it to TIME_WAIT and step 3 arms
conn_timeout to now + 60; but step 4 (compat.h lines 727-733, inside the
claim's cited range) clears conn_timeout on every advancement, so the
processing of the segment returns with no conn_timeout pending. -/
theorem C2_counterexample :
    step3_advance uu 7 connClosing hdrAckAll 0 = some connClosingAcked ∧
    connClosingAcked.state = CState.TIME_WAIT ∧
    connClosingAcked.conn_timeout = some 67 ∧
    step4_timers (sub32 hdrAckAll.ack connClosing.snd.una) connClosingAcked =
      connClosingSwept ∧
    connClosingSwept.state = CState.TIME_WAIT ∧
    connClosingSwept.conn_timeout = none ∧
    processSegment uu false 7 3 connClosing hdrAckAll [] =
      some ⟨some connClosingDone, [], none⟩ ∧
    connClosingDone.state = CState.TIME_WAIT ∧
    connClosingDone.conn_timeout = none := by decide

/-- C2: when an acceptable segment advances the acknowledgment point,
steps 3 and 4 (compat.h lines 664-733) set snd.una = hdr.ack, reset dupack
to 0, grow cwnd by mtu clamped to maxsndbufsize, move the send buffer down
by the number of data bytes acked, keep snd.last, and apply the FIN_WAIT_1
to FIN_WAIT_2 and CLOSING to TIME_WAIT transitions when snd.una reaches
snd.last.  Amended from the claim: step 3 does arm conn_timeout to
now + 60 s on the CLOSING to TIME_WAIT transition, but step 4 then clears
conn_timeout on every advancement, so the cited range nets out with no
conn_timeout pending, and with rtrx_timeout cleared when everything sent
is acknowledged. -/
theorem C2_advance_net (u : Utcp) (now : Nat) (c : Conn) (hdr : Hdr) (len : Nat)
    (c2 c3 : Conn) (dAck : Int)
    (hdAck : dAck = seqdiff hdr.ack c.snd.una -
      (if c.state = CState.SYN_SENT ∨ c.state = CState.SYN_RECEIVED then 1 else 0))
    (hbuf : (seqdiff c.snd.last c.snd.una).toNat ≤ c.sndbuf.length)
    (hadv : 0 < seqdiff hdr.ack c.snd.una)
    (heq : step3_advance u now c hdr len = some c2)
    (hc3 : step4_timers (sub32 hdr.ack c.snd.una) c2 = c3) :
    c3.snd.una = u32 hdr.ack ∧
    c3.dupack = 0 ∧
    c3.snd.cwnd = min (u32 (c.snd.cwnd + u.mtu)) c.maxsndbufsize ∧
    c3.snd.last = c.snd.last ∧
    (∀ i : Nat, (dAck + (i : Int) < seqdiff c.snd.last c.snd.una) →
      c3.sndbuf.getD i 0 = c.sndbuf.getD (dAck.toNat + i) 0) ∧
    (c.state = CState.FIN_WAIT_1 →
      (if c3.snd.una = c3.snd.last then c3.state = CState.FIN_WAIT_2
        else c3.state = CState.FIN_WAIT_1)) ∧
    (c.state = CState.CLOSING →
      (if c3.snd.una = c3.snd.last then c3.state = CState.TIME_WAIT
        else c3.state = CState.CLOSING)) ∧
    c3.conn_timeout = none ∧
    (c3.snd.una = c3.snd.nxt → c3.rtrx_timeout = none) := by
  have hADV : sub32 hdr.ack c.snd.una ≠ 0 := sub32_ne_of_seqdiff_pos _ _ hadv
  obtain ⟨h1, h2, h3, h4, h5, h6, h7⟩ :=
    step3_effects u now c hdr len c2 dAck hdAck hbuf hadv heq
  unfold step4_timers at hc3
  rw [if_pos hADV] at hc3
  subst hc3
  show c2.snd.una = u32 hdr.ack ∧
    c2.dupack = 0 ∧
    c2.snd.cwnd = min (u32 (c.snd.cwnd + u.mtu)) c.maxsndbufsize ∧
    c2.snd.last = c.snd.last ∧
    (∀ i : Nat, (dAck + (i : Int) < seqdiff c.snd.last c.snd.una) →
      c2.sndbuf.getD i 0 = c.sndbuf.getD (dAck.toNat + i) 0) ∧
    (c.state = CState.FIN_WAIT_1 →
      (if c2.snd.una = c2.snd.last then c2.state = CState.FIN_WAIT_2
        else c2.state = CState.FIN_WAIT_1)) ∧
    (c.state = CState.CLOSING →
      (if c2.snd.una = c2.snd.last then c2.state = CState.TIME_WAIT
        else c2.state = CState.CLOSING)) ∧
    (none : Option Nat) = none ∧
    (c2.snd.una = c2.snd.nxt →
      (if c2.snd.una = c2.snd.nxt then none else c2.rtrx_timeout) = none)
  refine ⟨h1, h2, h3, h4, h5, h6, ?_, rfl, ?_⟩
  · intro hcl
    have h7c := h7 hcl
    by_cases hu : c2.snd.una = c2.snd.last
    · rw [if_pos hu] at h7c ⊢
      exact h7c.1
    · rw [if_neg hu] at h7c ⊢
      exact h7c
  · intro hu
    rw [if_pos hu]

/-- C2 witness: the amended theorem applied to the CLOSING connection whose
outstanding five sequence numbers are fully acknowledged at time 7: it ends
in TIME_WAIT with no timer pending. -/
theorem C2_advance_net_witness :
    ((5 : Int) = seqdiff hdrAckAll.ack connClosing.snd.una -
      (if connClosing.state = CState.SYN_SENT ∨ connClosing.state = CState.SYN_RECEIVED
        then 1 else 0) ∧
      (seqdiff connClosing.snd.last connClosing.snd.una).toNat ≤
        connClosing.sndbuf.length ∧
      0 < seqdiff hdrAckAll.ack connClosing.snd.una ∧
      step3_advance uu 7 connClosing hdrAckAll 0 = some connClosingAcked ∧
      step4_timers (sub32 hdrAckAll.ack connClosing.snd.una) connClosingAcked =
        connClosingSwept) ∧
    (connClosingSwept.snd.una = u32 hdrAckAll.ack ∧
      connClosingSwept.dupack = 0 ∧
      connClosingSwept.snd.cwnd =
        min (u32 (connClosing.snd.cwnd + uu.mtu)) connClosing.maxsndbufsize ∧
      connClosingSwept.snd.last = connClosing.snd.last ∧
      (∀ i : Nat,
        ((5 : Int) + (i : Int) < seqdiff connClosing.snd.last connClosing.snd.una) →
        connClosingSwept.sndbuf.getD i 0 =
          connClosing.sndbuf.getD ((5 : Int).toNat + i) 0) ∧
      (connClosing.state = CState.FIN_WAIT_1 →
        (if connClosingSwept.snd.una = connClosingSwept.snd.last then
            connClosingSwept.state = CState.FIN_WAIT_2
          else connClosingSwept.state = CState.FIN_WAIT_1)) ∧
      (connClosing.state = CState.CLOSING →
        (if connClosingSwept.snd.una = connClosingSwept.snd.last then
            connClosingSwept.state = CState.TIME_WAIT
          else connClosingSwept.state = CState.CLOSING)) ∧
      connClosingSwept.conn_timeout = none ∧
      (connClosingSwept.snd.una = connClosingSwept.snd.nxt →
        connClosingSwept.rtrx_timeout = none)) :=
  ⟨⟨by decide, by decide, by decide, by decide, by decide⟩,
    C2_advance_net uu 7 connClosing hdrAckAll 0 connClosingAcked connClosingSwept 5
      (by decide) (by decide) (by decide) (by decide) (by decide)⟩

end UTCP
